import Mathlib

/-!
Verification development for the YiraParserApis medical-report parsing
service. The definitions below are shallow embeddings, translated from the
Python sources:

* `server/utils/confidence_calculator.py` — composite confidence score,
* `server/common/validators.py` — cross-field arithmetic validation (BMI),
* `server/api/v1/handlers/medical_reports_multitenant.py` and
  `server/workers/parsing_worker.py` — multi-document consolidation,
* `server/workers/parsing_worker.py` — job state machine, retry logic,
  webhook delivery bookkeeping, and per-job processing counters.

JSON payloads are modelled by the inductive type `JVal`; Python dicts are
association lists preserving insertion order; machine floats of the source
are modelled by exact rationals (the claims under study only involve exact
decimal arithmetic); fallible code paths (Python statements that can raise
an uncaught exception for ill-typed payloads) return `Option`.
-/

/-- A JSON-like Python value: None, bool, number, string, list, or dict.
Dicts are insertion-ordered association lists, as in Python 3.7+. -/
inductive JVal where
  | jnull
  | jbool (b : Bool)
  | jnum (q : ℚ)
  | jstr (s : String)
  | jlist (xs : List JVal)
  | jdict (kvs : List (String × JVal))

/-- A Python dict with string keys, as an insertion-ordered association list. -/
abbrev PyDict := List (String × JVal)

/-- Python truthiness: `bool(v)` for each JSON-like value. -/
def truthy : JVal → Bool
  | .jnull => false
  | .jbool b => b
  | .jnum q => q != 0
  | .jstr s => s != ""
  | .jlist xs => !xs.isEmpty
  | .jdict kvs => !kvs.isEmpty

mutual
/-- Python structural equality `==` on JSON-like values. -/
def pyEq : JVal → JVal → Bool
  | .jnull, .jnull => true
  | .jbool a, .jbool b => a == b
  | .jnum a, .jnum b => a == b
  | .jstr a, .jstr b => a == b
  | .jlist xs, .jlist ys => pyEqList xs ys
  | .jdict xs, .jdict ys => pyEqDict xs ys
  | _, _ => false

def pyEqList : List JVal → List JVal → Bool
  | [], [] => true
  | x :: xs, y :: ys => pyEq x y && pyEqList xs ys
  | _, _ => false

def pyEqDict : List (String × JVal) → List (String × JVal) → Bool
  | [], [] => true
  | (k, v) :: xs, (k2, v2) :: ys => k == k2 && pyEq v v2 && pyEqDict xs ys
  | _, _ => false
end

/-- Dict lookup: `d[k]` / `d.get(k)`, first (unique) binding of the key. -/
def dGet : PyDict → String → Option JVal
  | [], _ => none
  | (k2, v) :: rest, k => if k2 == k then some v else dGet rest k

/-- Dict update `d[k] = v`: replaces the binding in place if the key exists,
otherwise appends it, as Python insertion-ordered dicts do. -/
def dSet : PyDict → String → JVal → PyDict
  | [], k, v => [(k, v)]
  | (k2, v2) :: rest, k, v =>
    if k2 == k then (k, v) :: rest else (k2, v2) :: dSet rest k v

/-- Dict removal `d.pop(k, None)`. -/
def dPop : PyDict → String → PyDict
  | [], _ => []
  | (k2, v2) :: rest, k => if k2 == k then rest else (k2, v2) :: dPop rest k

/-- `d.get(k, default)` with a JSON default. -/
def dGetD (d : PyDict) (k : String) (v : JVal) : JVal := (dGet d k).getD v

/-- Truthiness of an optional lookup: `bool(d.get(k))`. -/
def truthyO : Option JVal → Bool
  | some v => truthy v
  | none => false

/-- The six characters Python `str.strip()` and `\s` treat as whitespace. -/
def isPySpace (c : Char) : Bool :=
  c == ' ' || c == '\t' || c == '\n' || c == '\r' || c == '\x0b' || c == '\x0c'

/-- Python `str.strip()`: drop leading and trailing whitespace. -/
def pyStrip (s : String) : String :=
  ⟨((s.data.dropWhile isPySpace).reverse.dropWhile isPySpace).reverse⟩

mutual
/-- Python `str(v)` for JSON-like values. Container rendering is
approximate (element quoting is not reproduced); the sources only ever
consume `str(v)` through emptiness-after-strip tests and through scalar
leaves, for which this rendering is exact. -/
def pyStr : JVal → String
  | .jnull => "None"
  | .jbool true => "True"
  | .jbool false => "False"
  | .jnum q => if q.den = 1 then toString q.num else toString q.num ++ "." ++ toString q.den
  | .jstr s => s
  | .jlist xs => "[" ++ String.intercalate ", " (pyStrList xs) ++ "]"
  | .jdict kvs => "\x7b" ++ String.intercalate ", " (pyStrDict kvs) ++ "\x7d"

def pyStrList : List JVal → List String
  | [] => []
  | x :: xs => pyStr x :: pyStrList xs

def pyStrDict : List (String × JVal) → List String
  | [] => []
  | (k, v) :: xs => (k ++ ": " ++ pyStr v) :: pyStrDict xs
end

/-- Python `int(q)` on a rational: truncation toward zero. -/
def pyTrunc (q : ℚ) : ℤ := if q < 0 then -(⌊-q⌋) else ⌊q⌋

/-- Python `min` on two integers. -/
def pyMinI (a b : ℤ) : ℤ := if a ≤ b then a else b

/-- Python `min` on two rationals. -/
def pyMinQ (a b : ℚ) : ℚ := if a ≤ b then a else b

/-- Python `max` on two integers. -/
def pyMaxI (a b : ℤ) : ℤ := if a ≤ b then b else a

/-! ## Confidence calculator (`server/utils/confidence_calculator.py`) -/

namespace ConfidenceCalculator

/-- `ConfidenceCalculator.EXPECTED_FIELDS`, in source order with weights. -/
def EXPECTED_FIELDS : List (String × Nat) :=
  [("patient_name", 10), ("patient_id", 10), ("encounter_date", 10),
   ("diagnosis", 15), ("medications", 10), ("lab_results", 10),
   ("imaging_findings", 5), ("vital_signs", 10), ("clinician_name", 5)]

/-- The per-field test of `_check_completeness`:
`if value and str(value).strip()`. -/
def fieldPresentNonEmpty (v : JVal) : Bool :=
  truthy v && !(pyStrip (pyStr v)).isEmpty

/-- The three lists built by `_check_completeness`. -/
structure CompletenessDetails where
  present : List String
  missing : List String
  empty : List String
  deriving DecidableEq

/-- The field loop of `_check_completeness`. -/
def completenessFold (data : PyDict) : CompletenessDetails :=
  EXPECTED_FIELDS.foldl (fun acc fw =>
    match dGet data fw.1 with
    | some v =>
      if fieldPresentNonEmpty v then { acc with present := acc.present ++ [fw.1] }
      else { acc with empty := acc.empty ++ [fw.1] }
    | none => { acc with missing := acc.missing ++ [fw.1] }) ⟨[], [], []⟩

/-- `_check_completeness`: score is `present / expected * 40`. -/
def checkCompleteness (data : PyDict) : ℚ × CompletenessDetails :=
  let d := completenessFold data
  ((d.present.length : ℚ) / (EXPECTED_FIELDS.length : ℚ) * 40, d)

/-- Character class `[A-Za-z\s.-]` of the patient-name pattern. -/
def nameClassChar (c : Char) : Bool :=
  ('A' ≤ c && c ≤ 'Z') || ('a' ≤ c && c ≤ 'z') || isPySpace c || c == '.' || c == '-'

/-- `re.match(r'^[A-Za-z\s.-]+$', name)`: the whole string is drawn from
the class and is non-empty. (Python `$` also accepts one trailing newline,
but a newline is in the class itself, so the two readings agree.) -/
def nameMatches (s : String) : Bool :=
  !s.isEmpty && s.data.all nameClassChar

def isDigitChar (c : Char) : Bool := c.isDigit

def isAsciiAlphaChar (c : Char) : Bool := ('A' ≤ c && c ≤ 'Z') || ('a' ≤ c && c ≤ 'z')

/-- Consume exactly `n` digits. -/
def takeDigits : Nat → List Char → Option (List Char)
  | 0, cs => some cs
  | n + 1, c :: cs => if isDigitChar c then takeDigits n cs else none
  | _ + 1, [] => none

/-- Consume one literal character. -/
def litChar (ch : Char) : List Char → Option (List Char)
  | c :: cs => if c == ch then some cs else none
  | [] => none

/-- Consume a non-empty maximal run of characters satisfying `p` (greedy
`+`; the callers always follow it with a disjoint class, so greediness
never needs backtracking). -/
def plusRun (p : Char → Bool) : List Char → Option (List Char)
  | c :: cs => if p c then some (cs.dropWhile p) else none
  | [] => none

/-- Prefix match for `\d{4}-\d{2}-\d{2}`. -/
def matchDatePat1 (cs : List Char) : Bool :=
  (do
    let cs ← takeDigits 4 cs
    let cs ← litChar '-' cs
    let cs ← takeDigits 2 cs
    let cs ← litChar '-' cs
    let _ ← takeDigits 2 cs
    pure ()).isSome

/-- Prefix match for `\d{2}/\d{2}/\d{4}`. -/
def matchDatePat2 (cs : List Char) : Bool :=
  (do
    let cs ← takeDigits 2 cs
    let cs ← litChar '/' cs
    let cs ← takeDigits 2 cs
    let cs ← litChar '/' cs
    let _ ← takeDigits 4 cs
    pure ()).isSome

/-- Prefix match for `\d{2}-\d{2}-\d{4}`. -/
def matchDatePat3 (cs : List Char) : Bool :=
  (do
    let cs ← takeDigits 2 cs
    let cs ← litChar '-' cs
    let cs ← takeDigits 2 cs
    let cs ← litChar '-' cs
    let _ ← takeDigits 4 cs
    pure ()).isSome

/-- Prefix match for `\d{1,2}\s+[A-Za-z]+\s+\d{4}`; the `{1,2}` is tried
greedily (two digits first, then one), as the regex engine does. -/
def matchDatePat4 (cs : List Char) : Bool :=
  let rest (cs : List Char) : Bool :=
    (do
      let cs ← plusRun isPySpace cs
      let cs ← plusRun isAsciiAlphaChar cs
      let cs ← plusRun isPySpace cs
      let _ ← takeDigits 4 cs
      pure ()).isSome
  (match takeDigits 2 cs with | some cs2 => rest cs2 | none => false)
    || (match takeDigits 1 cs with | some cs1 => rest cs1 | none => false)

/-- `_is_valid_date`: `re.match` (anchored at the start only) against the
four literal date-shape patterns. -/
def isValidDate (s : String) : Bool :=
  matchDatePat1 s.data || matchDatePat2 s.data || matchDatePat3 s.data
    || matchDatePat4 s.data

/-- Accumulator of `_check_formats`. -/
structure FmtState where
  score : ℤ
  validations : List String
  issues : List String
  deriving DecidableEq

def DATE_FIELDS : List String := ["encounter_date", "date_of_birth", "admission_date"]

/-- The patient-name block of `_check_formats`. -/
def formatNameStep (data : PyDict) (st : FmtState) : FmtState :=
  match dGet data "patient_name" with
  | some v =>
    if truthy v then
      let name := pyStr v
      if decide (2 ≤ name.length) && nameMatches name then
        { st with validations := st.validations ++ ["patient_name: valid format"] }
      else
        { st with score := st.score - 5,
                  issues := st.issues ++ ["patient_name: suspicious format"] }
    else st
  | none => st

/-- One iteration of the date-field loop of `_check_formats`. -/
def formatDateStep (data : PyDict) (st : FmtState) (f : String) : FmtState :=
  match dGet data f with
  | some v =>
    if truthy v then
      if isValidDate (pyStr v) then
        { st with validations := st.validations ++ [f ++ ": valid date format"] }
      else
        { st with score := st.score - 3,
                  issues := st.issues ++ [f ++ ": invalid date format"] }
    else st
  | none => st

/-- The patient-id block of `_check_formats`. -/
def formatPidStep (data : PyDict) (st : FmtState) : FmtState :=
  match dGet data "patient_id" with
  | some v =>
    if truthy v then
      if decide (3 ≤ (pyStr v).length) then
        { st with validations := st.validations ++ ["patient_id: valid length"] }
      else
        { st with score := st.score - 5,
                  issues := st.issues ++ ["patient_id: suspiciously short"] }
    else st
  | none => st

/-- `_check_formats`: starts at 30 and debits 5 for a suspicious patient
name, 3 per unparseable date field, 5 for a short patient id; the returned
score is floored at 0. -/
def checkFormats (data : PyDict) : FmtState :=
  let st : FmtState := ⟨30, [], []⟩
  let st := formatNameStep data st
  let st := DATE_FIELDS.foldl (formatDateStep data) st
  let st := formatPidStep data st
  { st with score := pyMaxI 0 st.score }

/-- Accumulator of `_check_consistency`. -/
structure ConsState where
  score : ℤ
  checks : List String
  warnings : List String
  deriving DecidableEq

/-- Is the value a structured list or dict (`isinstance(v, (list, dict))`)? -/
def isStructured : JVal → Bool
  | .jlist _ => true
  | .jdict _ => true
  | _ => false

/-- Is the value an int or float in `[0, 100]`? Python `bool` is a subclass
of `int`, so `jbool` values qualify as well. -/
def numericInRange (v : JVal) : Bool :=
  match v with
  | .jnum q => decide (0 ≤ q) && decide (q ≤ 100)
  | .jbool _ => true
  | _ => false

/-- The medications-imply-diagnosis block of `_check_consistency`. -/
def consMedsStep (data : PyDict) (st : ConsState) : ConsState :=
  if truthyO (dGet data "medications") then
    if truthyO (dGet data "diagnosis") then
      { st with checks := st.checks ++ ["diagnosis present with medications"] }
    else
      { st with score := st.score - 5,
                warnings := st.warnings ++ ["medications without diagnosis"] }
  else st

/-- The structured-lab-results block of `_check_consistency`. -/
def consLabStep (data : PyDict) (st : ConsState) : ConsState :=
  if truthyO (dGet data "lab_results") then
    match dGet data "lab_results" with
    | some v =>
      if isStructured v then
        { st with checks := st.checks ++ ["lab_results properly structured"] }
      else
        { st with score := st.score - 3,
                  warnings := st.warnings ++ ["lab_results not structured"] }
    | none => st
  else st

/-- The extracted-confidence block of `_check_consistency`; it never
changes the score. -/
def consConfStep (data : PyDict) (st : ConsState) : ConsState :=
  match dGet data "confidence_score" with
  | some v =>
    if numericInRange v then
      { st with checks := st.checks ++ ["gemini confidence: " ++ pyStr v] }
    else
      { st with warnings := st.warnings ++ ["invalid gemini confidence format"] }
  | none => st

/-- `_check_consistency`: starts at 20 and debits 5 for medications without
a diagnosis and 3 for unstructured lab results; the presence of the
extracted confidence field is inspected but never debited. -/
def checkConsistency (data : PyDict) : ConsState :=
  let st : ConsState := ⟨20, [], []⟩
  let st := consMedsStep data st
  let st := consLabStep data st
  let st := consConfStep data st
  { st with score := pyMaxI 0 st.score }

/-- `_generate_summary`: quality band from score thresholds, then counts of
present and missing fields and of format warnings. -/
def generateSummary (score : ℤ) (comp : CompletenessDetails)
    (formatIssues : List String) : String :=
  let quality :=
    if score ≥ 90 then "Excellent"
    else if score ≥ 80 then "Very Good"
    else if score ≥ 70 then "Good"
    else if score ≥ 60 then "Fair"
    else "Poor"
  let present := comp.present.length
  let missing := comp.missing.length
  let summary := quality ++ " data quality. " ++ toString present ++ " key fields extracted"
  let summary :=
    if missing > 0 then summary ++ ", " ++ toString missing ++ " missing" else summary
  if formatIssues.length > 0 then
    summary ++ ". " ++ toString formatIssues.length ++ " format warnings"
  else summary

/-- The validation-details record returned alongside the score. -/
structure ValidationDetails where
  completeness : CompletenessDetails
  formatValidations : List String
  formatIssues : List String
  consistencyChecks : List String
  consistencyWarnings : List String
  geminiConfidence : Option ℚ

/-- The self-assessment bonus of `calculate_confidence`:
`min(10, gemini_confidence / 10)` when the self-report is truthy, else 0.
`gemini_confidence=None` is modelled as `none`. -/
def bonusOf (g : Option ℚ) : ℚ :=
  match g with
  | some q => if q != 0 then pyMinQ 10 (q / 10) else 0
  | none => 0

/-- The raw total of `calculate_confidence`: completeness (0-40) plus
format (0-30) plus consistency (0-20) plus the self-report bonus. -/
def totalScore (data : PyDict) (g : Option ℚ) : ℚ :=
  (checkCompleteness data).1 + ((checkFormats data).score : ℚ)
    + ((checkConsistency data).score : ℚ) + bonusOf g

/-- `min(100, int(total_score))` of `calculate_confidence`. -/
def finalScore (data : PyDict) (g : Option ℚ) : ℤ :=
  pyMinI 100 (pyTrunc (totalScore data g))

/-- `ConfidenceCalculator.calculate_confidence`: a falsy payload returns
score 0 outright; otherwise the banded summary and details accompany
`finalScore`. -/
def calculateConfidence (parsedData : PyDict) (geminiConfidence : Option ℚ) :
    ℤ × String × ValidationDetails :=
  if parsedData.isEmpty then
    (0, "No data extracted", ⟨⟨[], [], []⟩, [], [], [], [], none⟩)
  else
    let fmt := checkFormats parsedData
    let cons := checkConsistency parsedData
    let geminiTruthy := match geminiConfidence with
      | some g => g != 0
      | none => false
    let score : ℤ := finalScore parsedData geminiConfidence
    let details : ValidationDetails :=
      ⟨completenessFold parsedData, fmt.validations, fmt.issues, cons.checks, cons.warnings,
       if geminiTruthy then geminiConfidence else none⟩
    (score, generateSummary score (completenessFold parsedData) fmt.issues, details)

end ConfidenceCalculator

namespace ConfidenceCalculator

/-- The per-field completeness test, applied through the dict lookup. -/
def fieldOk (data : PyDict) (f : String) : Bool :=
  match dGet data f with
  | some v => fieldPresentNonEmpty v
  | none => false

/-- All nine expected fields pass the completeness test. -/
def allExpectedFieldsOk (data : PyDict) : Bool :=
  EXPECTED_FIELDS.all fun fw => fieldOk data fw.1

/-- The patient-name format test of `_check_formats` passes. -/
def nameFormatOk (data : PyDict) : Bool :=
  match dGet data "patient_name" with
  | some v => decide (2 ≤ (pyStr v).length) && nameMatches (pyStr v)
  | none => false

/-- A date field is absent, falsy, or matches an accepted date shape, so
`_check_formats` debits nothing for it. -/
def dateFieldOk (data : PyDict) (f : String) : Bool :=
  match dGet data f with
  | some v => !truthy v || isValidDate (pyStr v)
  | none => true

/-- The patient-id length test of `_check_formats` passes. -/
def pidLenOk (data : PyDict) : Bool :=
  match dGet data "patient_id" with
  | some v => decide (3 ≤ (pyStr v).length)
  | none => false

/-- `lab_results` is a structured list or dict. -/
def labStructuredOk (data : PyDict) : Bool :=
  match dGet data "lab_results" with
  | some v => isStructured v
  | none => false

theorem fieldOk_elim {data : PyDict} {f : String} (h : fieldOk data f = true) :
    ∃ v, dGet data f = some v ∧ fieldPresentNonEmpty v = true := by
  unfold fieldOk at h
  cases hd : dGet data f with
  | none => rw [hd] at h; exact absurd h (by simp)
  | some v => rw [hd] at h; exact ⟨v, rfl, h⟩

theorem fieldOk_truthyO {data : PyDict} {f : String} (h : fieldOk data f = true) :
    truthyO (dGet data f) = true := by
  obtain ⟨v, hv, hok⟩ := fieldOk_elim h
  rw [hv]
  unfold fieldPresentNonEmpty at hok
  exact (Bool.and_eq_true_iff.mp hok).1

theorem completeness_of_allOk {data : PyDict} (h : allExpectedFieldsOk data = true) :
    completenessFold data =
      ⟨["patient_name", "patient_id", "encounter_date", "diagnosis", "medications",
        "lab_results", "imaging_findings", "vital_signs", "clinician_name"], [], []⟩ := by
  unfold allExpectedFieldsOk EXPECTED_FIELDS at h
  simp only [List.all_cons, List.all_nil, Bool.and_eq_true] at h
  obtain ⟨h1, h2, h3, h4, h5, h6, h7, h8, h9, -⟩ := h
  obtain ⟨v1, hv1, ho1⟩ := fieldOk_elim h1
  obtain ⟨v2, hv2, ho2⟩ := fieldOk_elim h2
  obtain ⟨v3, hv3, ho3⟩ := fieldOk_elim h3
  obtain ⟨v4, hv4, ho4⟩ := fieldOk_elim h4
  obtain ⟨v5, hv5, ho5⟩ := fieldOk_elim h5
  obtain ⟨v6, hv6, ho6⟩ := fieldOk_elim h6
  obtain ⟨v7, hv7, ho7⟩ := fieldOk_elim h7
  obtain ⟨v8, hv8, ho8⟩ := fieldOk_elim h8
  obtain ⟨v9, hv9, ho9⟩ := fieldOk_elim h9
  simp [completenessFold, EXPECTED_FIELDS, hv1, ho1, hv2, ho2, hv3, ho3, hv4, ho4,
        hv5, ho5, hv6, ho6, hv7, ho7, hv8, ho8, hv9, ho9]

end ConfidenceCalculator

namespace ConfidenceCalculator

theorem fieldPresentNonEmpty_truthy {v : JVal} (h : fieldPresentNonEmpty v = true) :
    truthy v = true := by
  simp only [fieldPresentNonEmpty, Bool.and_eq_true] at h
  exact h.1

theorem formatNameStep_ok {data : PyDict}
    (hnf : fieldOk data "patient_name" = true) (hn : nameFormatOk data = true)
    (st : FmtState) :
    formatNameStep data st =
      { st with validations := st.validations ++ ["patient_name: valid format"] } := by
  obtain ⟨v, hv, ho⟩ := fieldOk_elim hnf
  have ht := fieldPresentNonEmpty_truthy ho
  simp only [nameFormatOk, hv] at hn
  simp [formatNameStep, hv, ht, hn]

theorem formatDateStep_ok {data : PyDict} {f : String}
    (h : dateFieldOk data f = true) (st : FmtState) :
    ∃ vl, formatDateStep data st f = ⟨st.score, vl, st.issues⟩ := by
  cases hd : dGet data f with
  | none => exact ⟨st.validations, by simp [formatDateStep, hd]⟩
  | some v =>
    simp only [dateFieldOk, hd] at h
    cases htv : truthy v with
    | false => exact ⟨st.validations, by simp [formatDateStep, hd, htv]⟩
    | true =>
      rw [htv] at h
      simp only [Bool.not_true, Bool.false_or] at h
      exact ⟨st.validations ++ [f ++ ": valid date format"],
        by simp [formatDateStep, hd, htv, h]⟩

theorem formatPidStep_ok {data : PyDict}
    (hpf : fieldOk data "patient_id" = true) (hp : pidLenOk data = true)
    (st : FmtState) :
    formatPidStep data st =
      { st with validations := st.validations ++ ["patient_id: valid length"] } := by
  obtain ⟨v, hv, ho⟩ := fieldOk_elim hpf
  have ht := fieldPresentNonEmpty_truthy ho
  simp only [pidLenOk, hv] at hp
  simp [formatPidStep, hv, ht, hp]

theorem checkFormats_full {data : PyDict}
    (hnf : fieldOk data "patient_name" = true) (hn : nameFormatOk data = true)
    (hd1 : dateFieldOk data "encounter_date" = true)
    (hd2 : dateFieldOk data "date_of_birth" = true)
    (hd3 : dateFieldOk data "admission_date" = true)
    (hpf : fieldOk data "patient_id" = true) (hp : pidLenOk data = true) :
    (checkFormats data).score = 30 ∧ (checkFormats data).issues = [] := by
  simp only [checkFormats, DATE_FIELDS, List.foldl]
  rw [formatNameStep_ok hnf hn]
  obtain ⟨vl1, e1⟩ := formatDateStep_ok hd1
    ({ score := 30, validations := [] ++ ["patient_name: valid format"], issues := [] } : FmtState)
  rw [e1]
  obtain ⟨vl2, e2⟩ := formatDateStep_ok hd2 (⟨30, vl1, []⟩ : FmtState)
  rw [e2]
  obtain ⟨vl3, e3⟩ := formatDateStep_ok hd3 (⟨30, vl2, []⟩ : FmtState)
  rw [e3]
  rw [formatPidStep_ok hpf hp]
  exact ⟨rfl, rfl⟩

theorem consMedsStep_ok {data : PyDict}
    (hm : truthyO (dGet data "medications") = true)
    (hd : truthyO (dGet data "diagnosis") = true) (st : ConsState) :
    consMedsStep data st =
      { st with checks := st.checks ++ ["diagnosis present with medications"] } := by
  unfold consMedsStep
  simp [hm, hd]

theorem consLabStep_ok {data : PyDict}
    (hlf : fieldOk data "lab_results" = true) (hls : labStructuredOk data = true)
    (st : ConsState) :
    consLabStep data st =
      { st with checks := st.checks ++ ["lab_results properly structured"] } := by
  obtain ⟨v, hv, ho⟩ := fieldOk_elim hlf
  have ht := fieldPresentNonEmpty_truthy ho
  simp only [labStructuredOk, hv] at hls
  simp [consLabStep, truthyO, hv, ht, hls]

theorem consConfStep_score {data : PyDict} (st : ConsState) :
    (consConfStep data st).score = st.score := by
  unfold consConfStep
  cases dGet data "confidence_score" with
  | none => rfl
  | some v =>
    by_cases h : numericInRange v = true
    · simp [h]
    · simp [h]

theorem checkConsistency_full {data : PyDict}
    (hm : truthyO (dGet data "medications") = true)
    (hd : truthyO (dGet data "diagnosis") = true)
    (hlf : fieldOk data "lab_results" = true) (hls : labStructuredOk data = true) :
    (checkConsistency data).score = 20 := by
  simp only [checkConsistency]
  rw [consMedsStep_ok hm hd, consLabStep_ok hlf hls]
  rw [consConfStep_score]
  rfl

end ConfidenceCalculator

namespace ConfidenceCalculator

/-- C3: a payload in which all nine expected fields are present and
non-empty, the date fields match an accepted date shape, the patient name
and id pass the format checks, diagnosis and medications are both present,
lab results are structured, and no extractor self-reported confidence is
supplied, scores exactly 40 + 30 + 20 + 0 = 90 with a summary in the
Excellent band. -/
theorem C3_full_payload_scores_90 (data : PyDict)
    (hall : allExpectedFieldsOk data = true)
    (hname : nameFormatOk data = true)
    (hd1 : dateFieldOk data "encounter_date" = true)
    (hd2 : dateFieldOk data "date_of_birth" = true)
    (hd3 : dateFieldOk data "admission_date" = true)
    (hpid : pidLenOk data = true)
    (hlab : labStructuredOk data = true) :
    (calculateConfidence data none).1 = 90 ∧
      (calculateConfidence data none).2.1 =
        "Excellent" ++ " data quality. 9 key fields extracted" := by
  have hall2 := hall
  simp only [allExpectedFieldsOk, EXPECTED_FIELDS, List.all_cons, List.all_nil,
    Bool.and_eq_true, and_true] at hall2
  obtain ⟨hnf, hpf, -, hdiag, hmeds, hlabf, -, -, -⟩ := hall2
  have hcomp := completeness_of_allOk hall
  have hfmt := checkFormats_full hnf hname hd1 hd2 hd3 hpf hpid
  have hcons := checkConsistency_full (fieldOk_truthyO hmeds) (fieldOk_truthyO hdiag) hlabf hlab
  have hne : data.isEmpty = false := by
    obtain ⟨v, hv, -⟩ := fieldOk_elim hnf
    cases data with
    | nil => simp [dGet] at hv
    | cons a l => rfl
  have hscore : finalScore data none = 90 := by
    unfold finalScore totalScore checkCompleteness
    rw [hcomp, hfmt.1, hcons]
    show pyMinI 100 (pyTrunc ((9 : ℚ) / ((EXPECTED_FIELDS.length : ℕ) : ℚ) * 40
      + ((30 : ℤ) : ℚ) + ((20 : ℤ) : ℚ) + bonusOf none)) = 90
    norm_num [EXPECTED_FIELDS, pyTrunc, pyMinI, bonusOf]
  simp only [calculateConfidence, hne, Bool.false_eq_true, if_false]
  rw [hscore, hcomp, hfmt.2]
  exact ⟨rfl, by decide⟩

end ConfidenceCalculator

namespace ConfidenceCalculator

end ConfidenceCalculator

namespace ConfidenceCalculator

/-- The quality band of `_generate_summary`, as a function of the score. -/
def qualityOf (score : ℤ) : String :=
  if score ≥ 90 then "Excellent"
  else if score ≥ 80 then "Very Good"
  else if score ≥ 70 then "Good"
  else if score ≥ 60 then "Fair"
  else "Poor"

/-- Everything `_generate_summary` appends after the quality band. -/
def summaryTail (comp : CompletenessDetails) (issues : List String) : String :=
  let s := " data quality. " ++ toString comp.present.length ++ " key fields extracted"
  let s := if comp.missing.length > 0 then s ++ ", " ++ toString comp.missing.length ++ " missing" else s
  if issues.length > 0 then s ++ ". " ++ toString issues.length ++ " format warnings" else s

theorem generateSummary_eq (score : ℤ) (comp : CompletenessDetails) (issues : List String) :
    generateSummary score comp issues = qualityOf score ++ summaryTail comp issues := by
  unfold generateSummary qualityOf summaryTail
  by_cases h2 : comp.missing.length > 0 <;> by_cases h3 : issues.length > 0 <;>
    simp [h2, h3, String.append_assoc]

theorem qualityOf_cases (score : ℤ) :
    (90 ≤ score → qualityOf score = "Excellent") ∧
    (80 ≤ score ∧ score < 90 → qualityOf score = "Very Good") ∧
    (70 ≤ score ∧ score < 80 → qualityOf score = "Good") ∧
    (60 ≤ score ∧ score < 70 → qualityOf score = "Fair") ∧
    (score < 60 → qualityOf score = "Poor") := by
  unfold qualityOf
  refine ⟨fun h => ?_, fun h => ?_, fun h => ?_, fun h => ?_, fun h => ?_⟩ <;>
    · split_ifs <;> first | rfl | omega

theorem pyMinI_le_left (a b : ℤ) : pyMinI a b ≤ a := by
  unfold pyMinI; split <;> omega

theorem pyMinI_nonneg {a b : ℤ} (ha : 0 ≤ a) (hb : 0 ≤ b) : 0 ≤ pyMinI a b := by
  unfold pyMinI; split <;> omega

theorem pyMaxI_zero_nonneg (x : ℤ) : 0 ≤ pyMaxI 0 x := by
  unfold pyMaxI; split <;> omega

theorem pyTrunc_nonneg {q : ℚ} (h : 0 ≤ q) : 0 ≤ pyTrunc q := by
  unfold pyTrunc
  rw [if_neg (by linarith)]
  exact Int.floor_nonneg.mpr h

theorem checkFormats_score_nonneg (data : PyDict) : 0 ≤ (checkFormats data).score := by
  simp only [checkFormats]
  exact pyMaxI_zero_nonneg _

theorem checkConsistency_score_nonneg (data : PyDict) : 0 ≤ (checkConsistency data).score := by
  simp only [checkConsistency]
  exact pyMaxI_zero_nonneg _

theorem checkCompleteness_nonneg (data : PyDict) : 0 ≤ (checkCompleteness data).1 := by
  unfold checkCompleteness
  positivity

theorem bonusOf_nonneg {g : Option ℚ} (hg : ∀ q, g = some q → 0 ≤ q) : 0 ≤ bonusOf g := by
  cases g with
  | none => simp [bonusOf]
  | some q =>
    have hq := hg q rfl
    simp only [bonusOf]
    split
    · unfold pyMinQ
      split
      · norm_num
      · positivity
    · norm_num

theorem totalScore_nonneg {data : PyDict} {g : Option ℚ}
    (hg : ∀ q, g = some q → 0 ≤ q) : 0 ≤ totalScore data g := by
  unfold totalScore
  have h1 := checkCompleteness_nonneg data
  have h2 := checkFormats_score_nonneg data
  have h3 := checkConsistency_score_nonneg data
  have h4 := bonusOf_nonneg hg
  positivity

end ConfidenceCalculator

namespace ConfidenceCalculator

/-- C4 (amended): the score is capped at 100 for every payload and
self-report; it is additionally bounded below by 0 whenever the
self-report is absent or nonnegative; and for every non-empty payload the
summary opens with the quality band determined by the returned score
(Excellent at 90 and above, Very Good at 80, Good at 70, Fair at 60, else
Poor). -/
theorem C4_score_capped_and_banded (data : PyDict) (g : Option ℚ) :
    (calculateConfidence data g).1 ≤ 100 ∧
    ((∀ q, g = some q → 0 ≤ q) → 0 ≤ (calculateConfidence data g).1) ∧
    (data ≠ [] →
      (90 ≤ (calculateConfidence data g).1 →
        ∃ t, (calculateConfidence data g).2.1 = "Excellent" ++ t) ∧
      (80 ≤ (calculateConfidence data g).1 ∧ (calculateConfidence data g).1 < 90 →
        ∃ t, (calculateConfidence data g).2.1 = "Very Good" ++ t) ∧
      (70 ≤ (calculateConfidence data g).1 ∧ (calculateConfidence data g).1 < 80 →
        ∃ t, (calculateConfidence data g).2.1 = "Good" ++ t) ∧
      (60 ≤ (calculateConfidence data g).1 ∧ (calculateConfidence data g).1 < 70 →
        ∃ t, (calculateConfidence data g).2.1 = "Fair" ++ t) ∧
      ((calculateConfidence data g).1 < 60 →
        ∃ t, (calculateConfidence data g).2.1 = "Poor" ++ t)) := by
  cases data with
  | nil =>
    exact ⟨by simp [calculateConfidence], fun _ => by simp [calculateConfidence],
      fun h => absurd rfl h⟩
  | cons hd tl =>
    have h1 : (calculateConfidence (hd :: tl) g).1 = finalScore (hd :: tl) g := by
      simp [calculateConfidence]
    have h2 : (calculateConfidence (hd :: tl) g).2.1 =
        generateSummary (finalScore (hd :: tl) g) (completenessFold (hd :: tl))
          (checkFormats (hd :: tl)).issues := by
      simp [calculateConfidence]
    rw [h1, h2]
    obtain ⟨b1, b2, b3, b4, b5⟩ := qualityOf_cases (finalScore (hd :: tl) g)
    rw [generateSummary_eq]
    refine ⟨pyMinI_le_left _ _, fun hg => ?_, fun _ => ?_⟩
    · exact pyMinI_nonneg (by norm_num) (pyTrunc_nonneg (totalScore_nonneg hg))
    · exact ⟨fun h => ⟨_, by rw [b1 h]⟩, fun h => ⟨_, by rw [b2 h]⟩,
        fun h => ⟨_, by rw [b3 h]⟩, fun h => ⟨_, by rw [b4 h]⟩,
        fun h => ⟨_, by rw [b5 h]⟩⟩

/-- C4 counterexample: the claim as stated is false. A negative
self-reported confidence drives the returned score to -50, outside
[0, 100], because only the upper bound is clamped; and the empty payload
returns score 0 with the fixed summary "No data extracted", which carries
no quality band. -/
theorem C4_counterexample :
    (calculateConfidence [("a", JVal.jnum 1)] (some (-1000))).1 = -50 ∧
    (calculateConfidence [] (some 50)).1 = 0 ∧
    ¬ ∃ t, (calculateConfidence [] (some 50)).2.1 = "Poor" ++ t := by
  refine ⟨?_, rfl, ?_⟩
  · have hcomp : completenessFold [("a", JVal.jnum 1)] =
        ⟨[], ["patient_name", "patient_id", "encounter_date", "diagnosis", "medications",
          "lab_results", "imaging_findings", "vital_signs", "clinician_name"], []⟩ := by decide
    have hfmtS : (checkFormats [("a", JVal.jnum 1)]).score = 30 := by decide
    have hconsS : (checkConsistency [("a", JVal.jnum 1)]).score = 20 := by decide
    have hscore : finalScore [("a", JVal.jnum 1)] (some (-1000)) = -50 := by
      unfold finalScore totalScore checkCompleteness
      rw [hcomp, hfmtS, hconsS]
      norm_num [pyMinI, pyMinQ, pyTrunc, EXPECTED_FIELDS, bonusOf]
    simp only [calculateConfidence, List.isEmpty_cons, Bool.false_eq_true, if_false]
    rw [hscore]
  · rintro ⟨t, ht⟩
    have hd := congrArg String.data ht
    rw [String.data_append] at hd
    simp [calculateConfidence] at hd

/-- Witness for C4 (amended) at a concrete payload: one field, a
self-report of 50; the score is in range and the summary is in the Poor
band. -/
theorem C4_score_capped_and_banded_witness :
    (calculateConfidence [("a", JVal.jnum 1)] (some 50)).1 ≤ 100 ∧
    0 ≤ (calculateConfidence [("a", JVal.jnum 1)] (some 50)).1 ∧
    ∃ t, (calculateConfidence [("a", JVal.jnum 1)] (some 50)).2.1 = "Poor" ++ t := by
  obtain ⟨hu, hl, hb⟩ := C4_score_capped_and_banded [("a", JVal.jnum 1)] (some 50)
  have hscore : (calculateConfidence [("a", JVal.jnum 1)] (some 50)).1 = 55 := by
    have hcomp : completenessFold [("a", JVal.jnum 1)] =
        ⟨[], ["patient_name", "patient_id", "encounter_date", "diagnosis", "medications",
          "lab_results", "imaging_findings", "vital_signs", "clinician_name"], []⟩ := by decide
    have hfmtS : (checkFormats [("a", JVal.jnum 1)]).score = 30 := by decide
    have hconsS : (checkConsistency [("a", JVal.jnum 1)]).score = 20 := by decide
    have h : finalScore [("a", JVal.jnum 1)] (some 50) = 55 := by
      unfold finalScore totalScore checkCompleteness
      rw [hcomp, hfmtS, hconsS]
      norm_num [pyMinI, pyMinQ, pyTrunc, EXPECTED_FIELDS, bonusOf]
    simp only [calculateConfidence, List.isEmpty_cons, Bool.false_eq_true, if_false]
    exact h
  exact ⟨hu, hl (fun q hq => by cases hq; norm_num),
    (hb (by simp)).2.2.2.2 (by rw [hscore]; norm_num)⟩

end ConfidenceCalculator

namespace ConfidenceCalculator

/-- A concrete fully-populated payload used to witness C3. -/
def samplePayloadC3 : PyDict :=
  [("patient_name", .jstr "John Smith"), ("patient_id", .jstr "P12345"),
   ("encounter_date", .jstr "2025-11-03"), ("diagnosis", .jlist [.jstr "Influenza"]),
   ("medications", .jlist [.jstr "Oseltamivir"]),
   ("lab_results", .jlist [.jdict [("test_name", .jstr "CBC")]]),
   ("imaging_findings", .jstr "Chest X-ray clear"),
   ("vital_signs", .jdict [("bp", .jstr "120/80")]),
   ("clinician_name", .jstr "Dr. Who")]

/-- Witness for C3: the hypotheses hold at `samplePayloadC3` and the
score there is 90 with an Excellent summary. -/
theorem C3_full_payload_scores_90_witness :
    (calculateConfidence samplePayloadC3 none).1 = 90 ∧
    (calculateConfidence samplePayloadC3 none).2.1 =
      "Excellent" ++ " data quality. 9 key fields extracted" :=
  C3_full_payload_scores_90 samplePayloadC3 (by decide) (by decide) (by decide)
    (by decide) (by decide) (by decide) (by decide)

end ConfidenceCalculator

/-! ## Cross-field vitals validation (`server/common/validators.py`) -/

namespace Validators

/-- Python `abs` on a rational. -/
def pyAbsQ (q : ℚ) : ℚ := if q < 0 then -q else q

/-- Character class `[\d.]` of the numeric-extraction pattern. -/
def isNumDotChar (c : Char) : Bool := c.isDigit || c == '.'

/-- `re.search(r'[\d.]+', s)`: the first maximal run of digits and dots
anywhere in the string, or `none` when no such character occurs (in which
case the source raises and falls into its warning handler). -/
def firstNumRun : List Char → Option (List Char)
  | [] => none
  | c :: cs =>
    if isNumDotChar c then some (c :: cs.takeWhile isNumDotChar)
    else firstNumRun cs

/-- The numeric value of a digit run. -/
def digitsVal (cs : List Char) : ℕ :=
  cs.foldl (fun a c => a * 10 + (c.toNat - '0'.toNat)) 0

/-- Python `float(text)` on such a run: digits with at most one dot and at
least one digit (`"70"`, `"22.9"`, `"1."`, `".5"`); anything else (a bare
dot, two dots) raises, modelled as `none`. -/
def parseDecimal (cs : List Char) : Option ℚ :=
  match cs.splitOn '.' with
  | [intp] => if intp.isEmpty then none else some (digitsVal intp : ℚ)
  | [intp, fracp] =>
    if intp.isEmpty && fracp.isEmpty then none
    else some ((digitsVal intp : ℚ) + (digitsVal fracp : ℚ) / 10 ^ fracp.length)
  | _ => none

/-- `float(re.search(r'[\d.]+', s).group())`. -/
def parseFirstNum (s : String) : Option ℚ := (firstNumRun s.data).bind parseDecimal

/-- Numeric extraction from an optional payload value: only strings are
accepted by `re.search`; any other type raises into the warning handler. -/
def numFromO : Option JVal → Option ℚ
  | some (.jstr s) => parseFirstNum s
  | _ => none

/-- Round half to even at integer precision (the behaviour of Python
`round`; the binary-float representation error of the source is modelled
as exact decimal arithmetic, the claims under study are far from ties). -/
def roundHalfEven (x : ℚ) : ℤ :=
  let f := ⌊x⌋
  let r := x - (f : ℚ)
  if r < 1/2 then f
  else if (1/2 : ℚ) < r then f + 1
  else if f % 2 = 0 then f else f + 1

/-- Python `round(q, 2)`. -/
def pyRound2 (q : ℚ) : ℚ := (roundHalfEven (q * 100) : ℚ) / 100

/-- A structured BMI-mismatch validation error (the source formats it as a
message string; the model keeps the two numbers the message interpolates). -/
inductive VitalsErr where
  | bmiMismatch (extracted calculated : ℚ)
  deriving DecidableEq

/-- The two warning shapes of `_validate_calculated_vitals`. -/
inductive VitalsWarn where
  | bmiNotExtracted (calculated : ℚ)
  | cantValidate
  deriving DecidableEq

/-- The slice of validator state touched by `_validate_calculated_vitals`. -/
structure VitalsResult where
  errors : List VitalsErr
  warnings : List VitalsWarn
  calculated : List (String × ℚ)
  deriving DecidableEq

/-- The `vitals` section: `data.get('vitals')` coerced to `{}` when absent
or not a dict. -/
def vitalsOf (data : PyDict) : PyDict :=
  match dGet data "vitals" with
  | some (.jdict kvs) => kvs
  | _ => []

/-- `MedicalDataValidator._validate_calculated_vitals`: when weight and
height are present and truthy, extract their numbers, compute
`round(weight_kg / (height_cm/100)^2, 2)`, record it as a calculated
field, and compare against the extracted BMI with tolerance 0.1; any
extraction/arithmetic failure (unparseable number, non-string value, zero
height) lands in the warning handler of the surrounding `try`. -/
def validateCalculatedVitals (data : PyDict) : VitalsResult :=
  let vitals := vitalsOf data
  if truthyO (dGet vitals "weight") && truthyO (dGet vitals "height") then
    match numFromO (dGet vitals "weight"), numFromO (dGet vitals "height") with
    | some w, some h =>
      if h = 0 then ⟨[], [.cantValidate], []⟩
      else
        let calcBmi := pyRound2 (w / ((h / 100) * (h / 100)))
        if truthyO (dGet vitals "bmi") then
          match numFromO (dGet vitals "bmi") with
          | some ext =>
            if pyAbsQ (ext - calcBmi) > 1/10 then
              ⟨[.bmiMismatch ext calcBmi], [], [("bmi", calcBmi)]⟩
            else ⟨[], [], [("bmi", calcBmi)]⟩
          | none => ⟨[], [.cantValidate], [("bmi", calcBmi)]⟩
        else ⟨[], [.bmiNotExtracted calcBmi], [("bmi", calcBmi)]⟩
    | _, _ => ⟨[], [.cantValidate], []⟩
  else ⟨[], [], []⟩

end Validators

namespace Validators

/-- C5: whenever the vitals section carries truthy weight, height and bmi
entries whose first numeric runs parse to `w`, `h` (nonzero) and `ext`,
the validator records the calculated BMI `round(w / (h/100)^2, 2)` and
flags a mismatch error exactly when the extracted BMI differs from it by
more than 0.1. -/
theorem C5_bmi_mismatch_iff (data : PyDict) (w h ext : ℚ)
    (hwt : truthyO (dGet (vitalsOf data) "weight") = true)
    (hht : truthyO (dGet (vitalsOf data) "height") = true)
    (hbt : truthyO (dGet (vitalsOf data) "bmi") = true)
    (hw : numFromO (dGet (vitalsOf data) "weight") = some w)
    (hh : numFromO (dGet (vitalsOf data) "height") = some h)
    (hext : numFromO (dGet (vitalsOf data) "bmi") = some ext)
    (hh0 : h ≠ 0) :
    (validateCalculatedVitals data).calculated =
      [("bmi", pyRound2 (w / ((h / 100) * (h / 100))))] ∧
    (validateCalculatedVitals data).errors =
      (if pyAbsQ (ext - pyRound2 (w / ((h / 100) * (h / 100)))) > 1/10 then
        [.bmiMismatch ext (pyRound2 (w / ((h / 100) * (h / 100))))]
      else []) ∧
    (validateCalculatedVitals data).warnings = [] := by
  simp only [validateCalculatedVitals, hwt, hht, hw, hh, hext, hbt, Bool.and_self, if_true,
    if_neg hh0]
  split <;> simp

/-- The concrete payload of the spec example: weight 70 kg, height 175 cm,
extracted BMI as given. -/
def bmiPayload (bmi : String) : PyDict :=
  [("vitals", .jdict [("weight", .jstr "70 kg"), ("height", .jstr "175 cm"),
    ("bmi", .jstr bmi)])]

/-- Witness for C5: at weight 70 kg and height 175 cm the calculated BMI
is 22.86; extracted 25.0 is flagged, extracted 22.9 is not. -/
theorem C5_bmi_mismatch_iff_witness :
    (validateCalculatedVitals (bmiPayload "25.0")).calculated = [("bmi", 1143/50)] ∧
    (validateCalculatedVitals (bmiPayload "25.0")).errors = [.bmiMismatch 25 (1143/50)] ∧
    (validateCalculatedVitals (bmiPayload "22.9")).errors = [] := by
  have hcalc : pyRound2 ((70 : ℚ) / ((175 / 100) * (175 / 100))) = 1143/50 := by
    have h1 : ((70 : ℚ) / ((175 / 100) * (175 / 100))) * 100 = 16000/7 := by norm_num
    have hfloor : ⌊(16000/7 : ℚ)⌋ = 2285 := by norm_num
    have hrhe : roundHalfEven (16000/7 : ℚ) = 2286 := by
      simp only [roundHalfEven, hfloor]
      norm_num
    rw [pyRound2, h1, hrhe]
    norm_num
  have hp70 : parseFirstNum "70 kg" = some 70 := by
    rw [parseFirstNum, show firstNumRun "70 kg".data = some ['7', '0'] from by decide]
    show parseDecimal ['7', '0'] = some 70
    simp only [parseDecimal]
    rw [show List.splitOn '.' ['7', '0'] = [['7', '0']] from by decide]
    norm_num [show digitsVal ['7', '0'] = 70 from by decide]
  have hp175 : parseFirstNum "175 cm" = some 175 := by
    rw [parseFirstNum, show firstNumRun "175 cm".data = some ['1', '7', '5'] from by decide]
    show parseDecimal ['1', '7', '5'] = some 175
    simp only [parseDecimal]
    rw [show List.splitOn '.' ['1', '7', '5'] = [['1', '7', '5']] from by decide]
    norm_num [show digitsVal ['1', '7', '5'] = 175 from by decide]
  have hp25 : parseFirstNum "25.0" = some 25 := by
    rw [parseFirstNum, show firstNumRun "25.0".data = some ['2', '5', '.', '0'] from by decide]
    show parseDecimal ['2', '5', '.', '0'] = some 25
    simp only [parseDecimal]
    rw [show List.splitOn '.' ['2', '5', '.', '0'] = [['2', '5'], ['0']] from by decide]
    norm_num [show digitsVal ['2', '5'] = 25 from by decide,
      show digitsVal ['0'] = 0 from by decide]
  have hp229 : parseFirstNum "22.9" = some (229/10) := by
    rw [parseFirstNum, show firstNumRun "22.9".data = some ['2', '2', '.', '9'] from by decide]
    show parseDecimal ['2', '2', '.', '9'] = some (229/10)
    simp only [parseDecimal]
    rw [show List.splitOn '.' ['2', '2', '.', '9'] = [['2', '2'], ['9']] from by decide]
    norm_num [show digitsVal ['2', '2'] = 22 from by decide,
      show digitsVal ['9'] = 9 from by decide]
  have hw1 : numFromO (dGet (vitalsOf (bmiPayload "25.0")) "weight") = some 70 := by
    show parseFirstNum "70 kg" = some 70
    exact hp70
  have hh1 : numFromO (dGet (vitalsOf (bmiPayload "25.0")) "height") = some 175 := by
    show parseFirstNum "175 cm" = some 175
    exact hp175
  have hb1 : numFromO (dGet (vitalsOf (bmiPayload "25.0")) "bmi") = some 25 := by
    show parseFirstNum "25.0" = some 25
    exact hp25
  have hw2 : numFromO (dGet (vitalsOf (bmiPayload "22.9")) "weight") = some 70 := by
    show parseFirstNum "70 kg" = some 70
    exact hp70
  have hh2 : numFromO (dGet (vitalsOf (bmiPayload "22.9")) "height") = some 175 := by
    show parseFirstNum "175 cm" = some 175
    exact hp175
  have hb2 : numFromO (dGet (vitalsOf (bmiPayload "22.9")) "bmi") = some (229/10) := by
    show parseFirstNum "22.9" = some (229/10)
    exact hp229
  obtain ⟨hc1, he1, -⟩ := C5_bmi_mismatch_iff (bmiPayload "25.0") 70 175 25
    (by decide) (by decide) (by decide) hw1 hh1 hb1 (by norm_num)
  obtain ⟨-, he2, -⟩ := C5_bmi_mismatch_iff (bmiPayload "22.9") 70 175 (229/10)
    (by decide) (by decide) (by decide) hw2 hh2 hb2 (by norm_num)
  rw [hcalc] at hc1 he1 he2
  refine ⟨hc1, ?_, ?_⟩
  · rw [he1, if_pos (by norm_num [pyAbsQ])]
  · rw [he2, if_neg (by norm_num [pyAbsQ])]

end Validators

/-! ## Multi-document consolidation

`_merge_parsed_reports` in
`server/api/v1/handlers/medical_reports_multitenant.py` and
`ParsingWorker._merge_parsed_results` in
`server/workers/parsing_worker.py` share textually identical array-field
and diagnosis blocks; only the handler merges photo-comparison data and
runs the final image-count consistency check. Inputs are the
`(filename, data)` pairs of the sources` list-of-dicts; `Option` marks
code paths where ill-typed payloads would raise out of the function. -/

namespace Merge

/-- The five array fields merged by extension, in source order. -/
def ARRAY_FIELDS : List String :=
  ["medications", "procedures", "lab_results", "imaging_findings", "recommendations"]

/-- `item['source_file'] = filename` for structured records; other items
pass through untouched. -/
def tagSourceFile (filename : String) (item : JVal) : JVal :=
  match item with
  | .jdict kvs => .jdict (dSet kvs "source_file" (.jstr filename))
  | v => v

/-- One array field of the merge loop: normalise the accumulator entry to
a list, coerce the source value to a list, tag structured items with their
source file, and extend. -/
def mergeArrayField (consolidated : PyDict) (filename : String) (data : PyDict)
    (field : String) : PyDict :=
  match dGet data field with
  | some dv =>
    if truthy dv then
      let base : List JVal :=
        match dGet consolidated field with
        | some cv =>
          if truthy cv then
            match cv with
            | .jlist xs => xs
            | v => [v]
          else []
        | none => []
      let source := (match dv with | .jlist xs => xs | v => [v]).map (tagSourceFile filename)
      dSet consolidated field (.jlist (base ++ source))
    else consolidated
  | none => consolidated

/-- The array-field loop of the merge. -/
def mergeArrayFields (consolidated : PyDict) (filename : String) (data : PyDict) : PyDict :=
  ARRAY_FIELDS.foldl (fun c f => mergeArrayField c filename data f) consolidated

/-- The diagnosis block: normalise both sides to lists (a bare string
becomes a one-element list, any other non-list becomes `[]` on the
accumulator side and `[str(v)]` on the source side) and append each truthy
source entry not already present under Python equality. -/
def mergeDiagnosis (consolidated : PyDict) (data : PyDict) : PyDict :=
  match dGet data "diagnosis" with
  | some dv =>
    if truthy dv then
      let base : List JVal :=
        match dGet consolidated "diagnosis" with
        | some cv =>
          if truthy cv then
            match cv with
            | .jstr s => [.jstr s]
            | .jlist xs => xs
            | _ => []
          else []
        | none => []
      let src : List JVal :=
        match dv with
        | .jstr s => [.jstr s]
        | .jlist xs => xs
        | v => if truthy v then [.jstr (pyStr v)] else []
      let merged := src.foldl (fun acc d =>
        if truthy d && !(acc.any (pyEq d)) then acc ++ [d] else acc) base
      dSet consolidated "diagnosis" (.jlist merged)
    else consolidated
  | none => consolidated

/-- The fresh photo-comparison skeleton installed when the accumulator has
none. -/
def defaultPC : PyDict :=
  [("images_found", .jlist []), ("comparison_performed", .jbool false),
   ("similarity_percentage", .jnull), ("comparison_details", .jnull), ("notes", .jstr "")]

def isNull : JVal → Bool
  | .jnull => true
  | _ => false

@[simp] theorem isNull_jnull : isNull .jnull = true := rfl
@[simp] theorem isNull_jbool (b : Bool) : isNull (.jbool b) = false := rfl
@[simp] theorem isNull_jnum (q : ℚ) : isNull (.jnum q) = false := rfl
@[simp] theorem isNull_jstr (s : String) : isNull (.jstr s) = false := rfl
@[simp] theorem isNull_jlist (xs : List JVal) : isNull (.jlist xs) = false := rfl
@[simp] theorem isNull_jdict (kvs : List (String × JVal)) : isNull (.jdict kvs) = false := rfl

/-- `new_img = img.copy(); new_img['image_number'] = img.get('image_number', 0)
+ offset; new_img['source_file'] = filename`. Non-dict images and
non-numeric image numbers raise (`none`); Python booleans add as 0/1. -/
def renumberImage (filename : String) (offset : ℕ) (img : JVal) : Option JVal :=
  match img with
  | .jdict ikvs =>
    match dGet ikvs "image_number" with
    | none =>
      some (.jdict (dSet (dSet ikvs "image_number" (.jnum offset)) "source_file" (.jstr filename)))
    | some (.jnum q) =>
      some (.jdict (dSet (dSet ikvs "image_number" (.jnum (q + offset))) "source_file" (.jstr filename)))
    | some (.jbool b) =>
      some (.jdict (dSet (dSet ikvs "image_number"
        (.jnum ((if b then 1 else 0) + offset))) "source_file" (.jstr filename)))
    | some _ => none
  | _ => none

/-- The `images_found` block of the photo-comparison merge: renumber and
append the incoming images, with the offset fixed at the current image
count. -/
def photoImagesBlock (filename : String) (pcd cpc : PyDict) : Option PyDict :=
  match dGet pcd "images_found" with
  | some iv =>
    if truthy iv then
      match iv with
      | .jlist imgs => do
        let existing ←
          match dGet cpc "images_found" with
          | none => some []
          | some (.jlist xs) => some xs
          | some _ => none
        let newImgs ← imgs.mapM (renumberImage filename existing.length)
        some (dSet cpc "images_found" (.jlist (existing ++ newImgs)))
      | _ => none
    else some cpc
  | none => some cpc

/-- `comparison_performed` is set once any document reports it. -/
def photoPerformedBlock (pcd cpc : PyDict) : PyDict :=
  if truthyO (dGet pcd "comparison_performed") && !truthyO (dGet cpc "comparison_performed") then
    dSet cpc "comparison_performed" (.jbool true)
  else cpc

/-- `similarity_percentage` takes the first non-None value. -/
def photoSimBlock (pcd cpc : PyDict) : PyDict :=
  if !isNull (dGetD pcd "similarity_percentage" .jnull)
      && isNull (dGetD cpc "similarity_percentage" .jnull) then
    dSet cpc "similarity_percentage" (dGetD pcd "similarity_percentage" .jnull)
  else cpc

/-- `comparison_details` takes the first truthy value. -/
def photoDetailsBlock (pcd cpc : PyDict) : PyDict :=
  if truthyO (dGet pcd "comparison_details") && !truthyO (dGet cpc "comparison_details") then
    dSet cpc "comparison_details" (dGetD pcd "comparison_details" .jnull)
  else cpc

/-- Truthy notes are joined onto the existing notes with `" | "`. -/
def photoNotesBlock (pcd cpc : PyDict) : Option PyDict :=
  if truthyO (dGet pcd "notes") then
    let pnotes := dGetD pcd "notes" .jnull
    let existing := dGetD cpc "notes" (.jstr "")
    if truthy existing then
      some (dSet cpc "notes" (.jstr (pyStr existing ++ " | " ++ pyStr pnotes)))
    else some (dSet cpc "notes" pnotes)
  else some cpc

/-- The photo-comparison block of the merge, acting on the current
`photo_comparison` entry of the accumulator: install the default skeleton
when absent or falsy, then run the four sub-blocks in source order. -/
def mergePhotoVal (cur : Option JVal) (filename : String) (pcd : PyDict) : Option PyDict := do
  let cpc ←
    match cur with
    | some v =>
      if truthy v then
        match v with
        | .jdict kvs => some kvs
        | _ => none
      else some defaultPC
    | none => some defaultPC
  let cpc ← photoImagesBlock filename pcd cpc
  let cpc := photoPerformedBlock pcd cpc
  let cpc := photoSimBlock pcd cpc
  let cpc := photoDetailsBlock pcd cpc
  photoNotesBlock pcd cpc

/-- The photo-comparison block, lifted to the whole accumulator dict. -/
def mergePhoto (consolidated : PyDict) (filename : String) (data : PyDict) : Option PyDict :=
  match dGet data "photo_comparison" with
  | some pcv =>
    if truthy pcv then
      match pcv with
      | .jdict pcd =>
        (mergePhotoVal (dGet consolidated "photo_comparison") filename pcd).map
          (fun pc => dSet consolidated "photo_comparison" (.jdict pc))
      | _ => none
    else some consolidated
  | none => some consolidated

/-- One iteration of the handler merge loop over a later document. -/
def mergeStep (consolidated : PyDict) (r : String × PyDict) : Option PyDict :=
  mergePhoto (mergeDiagnosis (mergeArrayFields consolidated r.1 r.2) r.2) r.1 r.2

/-- The post-loop consistency check of `_merge_parsed_reports`: two or
more merged images with `comparison_performed` still falsy appends the
warning note (then `str.strip()`). -/
def finalizePhotoWarning (consolidated : PyDict) : Option PyDict :=
  match dGet consolidated "photo_comparison" with
  | some pcv =>
    if truthy pcv then
      match pcv with
      | .jdict pc => do
        let count ←
          match dGet pc "images_found" with
          | none => some 0
          | some (.jlist xs) => some xs.length
          | some (.jstr s) => some s.length
          | some (.jdict kvs) => some kvs.length
          | some _ => none
        if decide (2 ≤ count) && !truthyO (dGet pc "comparison_performed") then do
          let notes ←
            match dGet pc "notes" with
            | none => some ""
            | some (.jstr s) => some s
            | some _ => none
          some (dSet consolidated "photo_comparison" (.jdict (dSet pc "notes"
            (.jstr (pyStrip (notes ++ " | WARNING: " ++ toString count
              ++ " images found but comparison not performed by AI."))))))
        else some consolidated
      | _ => none
    else some consolidated
  | none => some consolidated

/-- `_merge_parsed_reports` of the multitenant handler. -/
def mergeParsedReports (results : List (String × PyDict)) : Option PyDict :=
  match results with
  | [] => some []
  | [r] => some (dPop r.2 "batch_info")
  | r0 :: rest => do
    let c ← rest.foldlM mergeStep (dPop r0.2 "batch_info")
    finalizePhotoWarning c

/-- `ParsingWorker._merge_parsed_results`: identical array-field and
diagnosis blocks, but no photo-comparison merging and no final
consistency check. -/
def mergeParsedResults (results : List (String × PyDict)) : PyDict :=
  match results with
  | [] => []
  | [r] => dPop r.2 "batch_info"
  | r0 :: rest =>
    rest.foldl (fun c r => mergeDiagnosis (mergeArrayFields c r.1 r.2) r.2)
      (dPop r0.2 "batch_info")

end Merge

namespace Merge

/-- A later document contributing only photo-comparison data: its images
(by extracted image number), its comparison flag, optional similarity and
details, and a notes string. The claims quantify over these. -/
structure PCDoc where
  filename : String
  nums : List ℚ
  performed : Bool
  sim : Option ℚ
  details : Option String
  notes : String

def mkImage (n : ℚ) : JVal := .jdict [("image_number", .jnum n)]

def simVal : Option ℚ → JVal
  | some q => .jnum q
  | none => .jnull

def detVal : Option String → JVal
  | some s => .jstr s
  | none => .jnull

/-- The photo-comparison dict of a `PCDoc`. -/
def mkPCD (d : PCDoc) : PyDict :=
  [("images_found", .jlist (d.nums.map mkImage)),
   ("comparison_performed", .jbool d.performed),
   ("similarity_percentage", simVal d.sim),
   ("comparison_details", detVal d.details),
   ("notes", .jstr d.notes)]

/-- The extraction-shaped payload of a `PCDoc`. -/
def mkPhotoDoc (d : PCDoc) : String × PyDict :=
  (d.filename, [("photo_comparison", .jdict (mkPCD d))])

/-- Appending one document, as the spec describes it: its images are
renumbered by the running count of previously merged images and tagged
with their source file. -/
def specImagesStep (acc : List JVal) (d : PCDoc) : List JVal :=
  acc ++ d.nums.map (fun n =>
    .jdict [("image_number", .jnum (n + (acc.length : ℚ))), ("source_file", .jstr d.filename)])

/-- The merged image list as the spec describes it: the first document
passes through untouched, later documents are offset and tagged. -/
def specImages : List PCDoc → List JVal
  | [] => []
  | d0 :: rest => rest.foldl specImagesStep (d0.nums.map mkImage)

/-- `comparison_performed` merges to true exactly when any document
reports true. -/
def specPerformed (docs : List PCDoc) : Bool := docs.any (·.performed)

def firstSomeQ : List (Option ℚ) → JVal
  | [] => .jnull
  | some q :: _ => .jnum q
  | none :: rest => firstSomeQ rest

/-- The first non-null similarity percentage. -/
def specSim (docs : List PCDoc) : JVal := firstSomeQ (docs.map (·.sim))

def firstSomeS : List (Option String) → JVal
  | [] => .jnull
  | some s :: _ => .jstr s
  | none :: rest => firstSomeS rest

/-- The first non-null comparison details. -/
def specDetails (docs : List PCDoc) : JVal := firstSomeS (docs.map (·.details))

/-- Join notes left to right with the `" | "` separator. -/
def joinNotes (l : List String) : String :=
  match l with
  | [] => ""
  | n :: rest => rest.foldl (fun acc x => acc ++ " | " ++ x) n

/-- The non-empty notes of the documents, joined with the separator. -/
def specJoinedNotes (docs : List PCDoc) : String :=
  joinNotes ((docs.map (·.notes)).filter (fun s => !(s == "")))

/-- The accumulator dict after merging `docs`, phrased through the spec
values. -/
def pcState (imgs : List JVal) (perf : Bool) (sim det : JVal) (notes : String) : PyDict :=
  [("photo_comparison", .jdict
    [("images_found", .jlist imgs), ("comparison_performed", .jbool perf),
     ("similarity_percentage", sim), ("comparison_details", det), ("notes", .jstr notes)])]

def stateOf (docs : List PCDoc) : PyDict :=
  pcState (specImages docs) (specPerformed docs) (specSim docs) (specDetails docs)
    (specJoinedNotes docs)

theorem mapM_renumber (f : String) (len : ℕ) (nums : List ℚ) :
    (nums.map mkImage).mapM (renumberImage f len) =
      some (nums.map fun n =>
        .jdict [("image_number", .jnum (n + (len : ℚ))), ("source_file", .jstr f)]) := by
  induction nums with
  | nil => rfl
  | cons n ns ih =>
    simp only [List.map_cons, List.mapM_cons, ih]
    rfl

end Merge

namespace Merge

theorem str_append_ne_empty (a b : String) (h : a ≠ "") : a ++ b ≠ "" := by
  intro he
  apply h
  have hd := congrArg String.data he
  rw [String.data_append] at hd
  simp only [List.append_eq_nil] at hd
  cases a with
  | mk la =>
    simp only [String.data] at hd
    simp [hd.1]

/-- The five-key photo-comparison dict carried by the accumulator. -/
def pcInner (imgs : List JVal) (perf : Bool) (sim det : JVal) (notes : String) : PyDict :=
  [("images_found", .jlist imgs), ("comparison_performed", .jbool perf),
   ("similarity_percentage", sim), ("comparison_details", det), ("notes", .jstr notes)]

theorem pcState_eq (imgs : List JVal) (perf : Bool) (sim det : JVal) (notes : String) :
    pcState imgs perf sim det notes = [("photo_comparison", .jdict (pcInner imgs perf sim det notes))] := rfl

theorem mergeArrayFields_photoOnly (c : PyDict) (f : String) (pcv : JVal) :
    mergeArrayFields c f [("photo_comparison", pcv)] = c := by
  simp [mergeArrayFields, ARRAY_FIELDS, mergeArrayField, dGet]

theorem mergeDiagnosis_photoOnly (c : PyDict) (pcv : JVal) :
    mergeDiagnosis c [("photo_comparison", pcv)] = c := by
  simp [mergeDiagnosis, dGet]

theorem photoImagesBlock_pcInner (imgs : List JVal) (perf : Bool) (sim det : JVal)
    (notes : String) (d : PCDoc) :
    photoImagesBlock d.filename (mkPCD d) (pcInner imgs perf sim det notes) =
      some (pcInner (specImagesStep imgs d) perf sim det notes) := by
  rcases d with ⟨f, nums, dperf, dsim, ddet, dnotes⟩
  cases nums with
  | nil => simp [photoImagesBlock, mkPCD, pcInner, dGet, truthy, specImagesStep]
  | cons n ns =>
    have hm := mapM_renumber f imgs.length (n :: ns)
    simp at hm
    simp [photoImagesBlock, mkPCD, pcInner, dGet, truthy, specImagesStep, dSet, hm]

theorem photoPerformedBlock_pcInner (imgs : List JVal) (perf : Bool) (sim det : JVal)
    (notes : String) (d : PCDoc) :
    photoPerformedBlock (mkPCD d) (pcInner imgs perf sim det notes) =
      pcInner imgs (perf || d.performed) sim det notes := by
  rcases d with ⟨f, nums, dperf, dsim, ddet, dnotes⟩
  cases dperf <;> cases perf <;>
    simp [photoPerformedBlock, mkPCD, pcInner, dGet, dSet, truthyO, truthy]

theorem eq_jnull_of_isNull {v : JVal} (h : isNull v = true) : v = .jnull := by
  cases v <;> simp_all

theorem photoSimBlock_pcInner (imgs : List JVal) (perf : Bool) (sim det : JVal)
    (notes : String) (d : PCDoc) :
    photoSimBlock (mkPCD d) (pcInner imgs perf sim det notes) =
      pcInner imgs perf (if isNull sim then simVal d.sim else sim) det notes := by
  rcases d with ⟨f, nums, dperf, dsim, ddet, dnotes⟩
  cases dsim with
  | none =>
    by_cases hs : isNull sim = true
    · have h2 := eq_jnull_of_isNull hs
      subst h2
      simp [photoSimBlock, mkPCD, pcInner, dGet, dGetD, dSet, simVal]
    · simp [photoSimBlock, mkPCD, pcInner, dGet, dGetD, dSet, simVal, hs]
  | some q =>
    by_cases hs : isNull sim = true
    · cases sim <;> simp_all [photoSimBlock, mkPCD, pcInner, dGet, dGetD, dSet, simVal]
    · simp [photoSimBlock, mkPCD, pcInner, dGet, dGetD, dSet, simVal, hs]

theorem photoDetailsBlock_pcInner (imgs : List JVal) (perf : Bool) (sim det : JVal)
    (notes : String) (d : PCDoc) (hdet : d.details ≠ some "")
    (hdetState : det = .jnull ∨ truthy det = true) :
    photoDetailsBlock (mkPCD d) (pcInner imgs perf sim det notes) =
      pcInner imgs perf sim (if truthy det then det else detVal d.details) notes := by
  rcases d with ⟨f, nums, dperf, dsim, ddet, dnotes⟩
  cases ddet with
  | none =>
    rcases hdetState with h | h <;>
      simp_all [photoDetailsBlock, mkPCD, pcInner, dGet, dGetD, dSet, detVal, truthyO, truthy]
  | some s =>
    have hs : s ≠ "" := by
      intro h
      exact hdet (by simp [h])
    rcases hdetState with h | h <;>
      simp_all [photoDetailsBlock, mkPCD, pcInner, dGet, dGetD, dSet, detVal, truthyO, truthy]

theorem photoNotesBlock_pcInner (imgs : List JVal) (perf : Bool) (sim det : JVal)
    (notes : String) (d : PCDoc) :
    photoNotesBlock (mkPCD d) (pcInner imgs perf sim det notes) =
      some (pcInner imgs perf sim det
        (if d.notes = "" then notes
         else if notes = "" then d.notes
         else notes ++ " | " ++ d.notes)) := by
  rcases d with ⟨f, nums, dperf, dsim, ddet, dnotes⟩
  by_cases hdn : dnotes = "" <;> by_cases hn : notes = "" <;>
    simp_all [photoNotesBlock, mkPCD, pcInner, dGet, dGetD, dSet, truthyO, truthy, pyStr]

theorem mergePhotoVal_pcInner (imgs : List JVal) (perf : Bool) (sim det : JVal)
    (notes : String) (d : PCDoc) (hdet : d.details ≠ some "")
    (hdetState : det = .jnull ∨ truthy det = true) :
    mergePhotoVal (some (.jdict (pcInner imgs perf sim det notes))) d.filename (mkPCD d) =
      some (pcInner
        (specImagesStep imgs d)
        (perf || d.performed)
        (if isNull sim then simVal d.sim else sim)
        (if truthy det then det else detVal d.details)
        (if d.notes = "" then notes
         else if notes = "" then d.notes
         else notes ++ " | " ++ d.notes)) := by
  have h1 : truthy (.jdict (pcInner imgs perf sim det notes)) = true := by
    simp [truthy, pcInner]
  simp only [mergePhotoVal, h1, if_true, Option.bind_eq_bind, Option.some_bind,
    photoImagesBlock_pcInner, photoPerformedBlock_pcInner, photoSimBlock_pcInner,
    photoDetailsBlock_pcInner _ _ _ _ _ _ hdet hdetState,
    photoNotesBlock_pcInner]

end Merge

namespace Merge

theorem mergePhoto_pcState (imgs : List JVal) (perf : Bool) (sim det : JVal) (notes : String)
    (d : PCDoc) (hdet : d.details ≠ some "")
    (hdetState : det = .jnull ∨ truthy det = true) :
    mergePhoto (pcState imgs perf sim det notes) d.filename
      [("photo_comparison", .jdict (mkPCD d))] =
      some (pcState
        (specImagesStep imgs d)
        (perf || d.performed)
        (if isNull sim then simVal d.sim else sim)
        (if truthy det then det else detVal d.details)
        (if d.notes = "" then notes
         else if notes = "" then d.notes
         else notes ++ " | " ++ d.notes)) := by
  have h1 : dGet [("photo_comparison", JVal.jdict (mkPCD d))] "photo_comparison" =
      some (.jdict (mkPCD d)) := by simp [dGet]
  have h2 : dGet (pcState imgs perf sim det notes) "photo_comparison" =
      some (.jdict (pcInner imgs perf sim det notes)) := by simp [pcState, pcInner, dGet]
  have htr : truthy (.jdict (mkPCD d)) = true := by simp [truthy, mkPCD]
  have hds : ∀ v, dSet (pcState imgs perf sim det notes) "photo_comparison" v =
      [("photo_comparison", v)] := fun v => by simp [pcState, dSet]
  simp [mergePhoto, h1, htr, h2, hds,
    mergePhotoVal_pcInner _ _ _ _ _ _ hdet hdetState, pcState_eq]
  refine ⟨pcInner (specImagesStep imgs d) (perf || d.performed)
    (if isNull sim then simVal d.sim else sim)
    (if truthy det then det else detVal d.details)
    (if d.notes = "" then notes else if notes = "" then d.notes
     else notes ++ " | " ++ d.notes), ?_, ?_⟩
  · rw [show dGet [("photo_comparison", JVal.jdict (pcInner imgs perf sim det notes))]
      "photo_comparison" = some (JVal.jdict (pcInner imgs perf sim det notes)) from by simp [dGet]]
    exact mergePhotoVal_pcInner _ _ _ _ _ _ hdet hdetState
  · simp [dSet]

theorem mergeStep_pcState (imgs : List JVal) (perf : Bool) (sim det : JVal) (notes : String)
    (d : PCDoc) (hdet : d.details ≠ some "")
    (hdetState : det = .jnull ∨ truthy det = true) :
    mergeStep (pcState imgs perf sim det notes) (mkPhotoDoc d) =
      some (pcState
        (specImagesStep imgs d)
        (perf || d.performed)
        (if isNull sim then simVal d.sim else sim)
        (if truthy det then det else detVal d.details)
        (if d.notes = "" then notes
         else if notes = "" then d.notes
         else notes ++ " | " ++ d.notes)) := by
  show mergePhoto (mergeDiagnosis (mergeArrayFields (pcState imgs perf sim det notes)
    (mkPhotoDoc d).1 (mkPhotoDoc d).2) (mkPhotoDoc d).2) (mkPhotoDoc d).1 (mkPhotoDoc d).2 = _
  rw [show (mkPhotoDoc d).2 = [("photo_comparison", .jdict (mkPCD d))] from rfl]
  rw [mergeArrayFields_photoOnly, mergeDiagnosis_photoOnly]
  rw [show (mkPhotoDoc d).1 = d.filename from rfl]
  exact mergePhoto_pcState imgs perf sim det notes d hdet hdetState

theorem specImages_append (docs : List PCDoc) (d : PCDoc) (hne : docs ≠ []) :
    specImages (docs ++ [d]) = specImagesStep (specImages docs) d := by
  cases docs with
  | nil => exact absurd rfl hne
  | cons d0 rest => simp [specImages, List.cons_append, List.foldl_append]

theorem specPerformed_append (docs : List PCDoc) (d : PCDoc) :
    specPerformed (docs ++ [d]) = (specPerformed docs || d.performed) := by
  simp [specPerformed]

theorem specSim_append (docs : List PCDoc) (d : PCDoc) :
    specSim (docs ++ [d]) = if isNull (specSim docs) then simVal d.sim else specSim docs := by
  induction docs with
  | nil => cases hd : d.sim <;> simp [specSim, firstSomeQ, simVal, hd]
  | cons a t ih =>
    cases ha : a.sim with
    | none => simpa [specSim, firstSomeQ, ha] using ih
    | some q => simp [specSim, firstSomeQ, ha]

theorem specDetails_nullOrTruthy (docs : List PCDoc)
    (hdocs : ∀ e ∈ docs, e.details ≠ some "") :
    specDetails docs = .jnull ∨ truthy (specDetails docs) = true := by
  induction docs with
  | nil => exact Or.inl rfl
  | cons a t ih =>
    cases ha : a.details with
    | none =>
      have := ih (fun e he => hdocs e (List.mem_cons_of_mem a he))
      simpa [specDetails, firstSomeS, ha] using this
    | some s =>
      right
      have hs : s ≠ "" := fun h => hdocs a (List.mem_cons_self a t) (by rw [ha, h])
      simp [specDetails, firstSomeS, ha, truthy, hs]

theorem specDetails_append (docs : List PCDoc) (d : PCDoc)
    (hdocs : ∀ e ∈ docs, e.details ≠ some "") :
    specDetails (docs ++ [d]) =
      if truthy (specDetails docs) then specDetails docs else detVal d.details := by
  induction docs with
  | nil => cases hd : d.details <;> simp [specDetails, firstSomeS, detVal, truthy, hd]
  | cons a t ih =>
    cases ha : a.details with
    | none =>
      have := ih (fun e he => hdocs e (List.mem_cons_of_mem a he))
      simpa [specDetails, firstSomeS, ha, truthy] using this
    | some s =>
      have hs : s ≠ "" := fun h => hdocs a (List.mem_cons_self a t) (by rw [ha, h])
      simp [specDetails, firstSomeS, ha, truthy, hs]

theorem joinNotes_foldl_ne_empty (t : List String) (acc : String) (h : acc ≠ "") :
    t.foldl (fun acc x => acc ++ " | " ++ x) acc ≠ "" := by
  induction t generalizing acc with
  | nil => exact h
  | cons x xs ih =>
    exact ih _ (str_append_ne_empty _ _ (str_append_ne_empty _ _ h))

theorem joinNotes_ne_empty (l : List String) (hl : ∀ s ∈ l, s ≠ "") (hne : l ≠ []) :
    joinNotes l ≠ "" := by
  cases l with
  | nil => exact absurd rfl hne
  | cons a t => exact joinNotes_foldl_ne_empty t a (hl a (List.mem_cons_self a t))

theorem joinNotes_append_one (l : List String) (x : String) :
    joinNotes (l ++ [x]) = if l = [] then x else joinNotes l ++ " | " ++ x := by
  cases l with
  | nil => simp [joinNotes]
  | cons a t => simp [joinNotes, List.foldl_append]

theorem specJoinedNotes_append (docs : List PCDoc) (d : PCDoc) :
    specJoinedNotes (docs ++ [d]) =
      if d.notes = "" then specJoinedNotes docs
      else if specJoinedNotes docs = "" then d.notes
      else specJoinedNotes docs ++ " | " ++ d.notes := by
  by_cases hd : d.notes = ""
  · simp [specJoinedNotes, hd, List.filter_append]
  · have hfl : ((docs ++ [d]).map (·.notes)).filter (fun s => !(s == "")) =
        ((docs.map (·.notes)).filter (fun s => !(s == ""))) ++ [d.notes] := by
      simp [List.filter_append, hd]
    unfold specJoinedNotes
    rw [hfl, joinNotes_append_one, if_neg hd]
    by_cases hfe : (docs.map (·.notes)).filter (fun s => !(s == "")) = []
    · rw [if_pos hfe, hfe]
      simp [joinNotes]
    · rw [if_neg hfe,
        if_neg (joinNotes_ne_empty _ (fun s hs => by simpa using List.of_mem_filter hs) hfe)]

theorem mergeStep_stateOf (docs : List PCDoc) (hne : docs ≠ [])
    (hdocs : ∀ e ∈ docs, e.details ≠ some "") (d : PCDoc) (hd : d.details ≠ some "") :
    mergeStep (stateOf docs) (mkPhotoDoc d) = some (stateOf (docs ++ [d])) := by
  unfold stateOf
  rw [mergeStep_pcState _ _ _ _ _ d hd (specDetails_nullOrTruthy docs hdocs)]
  rw [specImages_append docs d hne, specPerformed_append, specSim_append,
    specDetails_append docs d hdocs, specJoinedNotes_append]

theorem foldlM_mergeStep_stateOf (rest : List PCDoc) (docs : List PCDoc) (hne : docs ≠ [])
    (hdocs : ∀ e ∈ docs, e.details ≠ some "")
    (hrest : ∀ e ∈ rest, e.details ≠ some "") :
    (rest.map mkPhotoDoc).foldlM mergeStep (stateOf docs) = some (stateOf (docs ++ rest)) := by
  induction rest generalizing docs with
  | nil => simp
  | cons d ds ih =>
    simp only [List.map_cons, List.foldlM_cons]
    rw [mergeStep_stateOf docs hne hdocs d (hrest d (List.mem_cons_self d ds))]
    simp only [Option.bind_eq_bind, Option.some_bind]
    rw [ih (docs ++ [d]) (by simp) ?hh ?hr]
    · simp
    case hh =>
      intro e he
      rcases List.mem_append.mp he with h | h
      · exact hdocs e h
      · rw [List.mem_singleton.mp h]
        exact hrest d (List.mem_cons_self d ds)
    case hr =>
      intro e he
      exact hrest e (List.mem_cons_of_mem d he)

end Merge

namespace Merge

/-- The notes after the post-merge consistency check: when two or more
images were merged and no comparison was performed, the warning is
appended and the result stripped. -/
def specNotesFinal (docs : List PCDoc) : String :=
  if 2 ≤ (specImages docs).length ∧ specPerformed docs = false then
    pyStrip (specJoinedNotes docs ++ " | WARNING: " ++ toString (specImages docs).length
      ++ " images found but comparison not performed by AI.")
  else specJoinedNotes docs

theorem finalize_stateOf (docs : List PCDoc) :
    finalizePhotoWarning (stateOf docs) =
      some (pcState (specImages docs) (specPerformed docs) (specSim docs) (specDetails docs)
        (specNotesFinal docs)) := by
  have h1 : dGet (stateOf docs) "photo_comparison" =
      some (.jdict (pcInner (specImages docs) (specPerformed docs) (specSim docs)
        (specDetails docs) (specJoinedNotes docs))) := by
    simp [stateOf, pcState, pcInner, dGet]
  have htr : truthy (.jdict (pcInner (specImages docs) (specPerformed docs) (specSim docs)
      (specDetails docs) (specJoinedNotes docs))) = true := by simp [truthy, pcInner]
  have hds : ∀ v, dSet (stateOf docs) "photo_comparison" v = [("photo_comparison", v)] :=
    fun v => by simp [stateOf, pcState, dSet]
  unfold finalizePhotoWarning
  rw [h1]
  simp only [htr, if_true]
  by_cases hc : 2 ≤ (specImages docs).length
  · by_cases hp : specPerformed docs = true
    · simp [pcInner, dGet, hc, hp, specNotesFinal, stateOf, pcState, truthyO, truthy]
    · simp only [Bool.not_eq_true] at hp
      simp [pcInner, dGet, dSet, hc, hp, specNotesFinal, hds, stateOf, pcState, truthyO, truthy]
  · by_cases hp : specPerformed docs = true <;>
      simp [pcInner, dGet, hc, hp, specNotesFinal, stateOf, pcState, truthyO, truthy]

theorem stateOf_single (d0 : PCDoc) : dPop (mkPhotoDoc d0).2 "batch_info" = stateOf [d0] := by
  rcases d0 with ⟨f, nums, dperf, dsim, ddet, dnotes⟩
  cases dsim <;> cases ddet <;> by_cases hn : dnotes = "" <;>
    simp_all [dPop, mkPhotoDoc, mkPCD, stateOf, pcState, pcInner, specImages, specPerformed,
      specSim, specDetails, specJoinedNotes, firstSomeQ, firstSomeS, simVal, detVal, joinNotes]

/-- C6 (amended, holding for the handler merge `_merge_parsed_reports`):
for every consolidation of two or more photo-comparison documents, each
appended document has its image numbers offset by the running count of
previously merged images and tagged with its source file; the merged
`comparison_performed` is true exactly when some document reports true;
`similarity_percentage` and `comparison_details` keep the first non-null
value (details being null or non-empty); non-empty notes are joined with
`" | "`; and when two or more images are merged while the comparison flag
is still false, the warning note is appended. The worker merge
`_merge_parsed_results` does not implement any of this (see the
counterexample). -/
theorem C6_photo_consolidation (d0 d1 : PCDoc) (rest : List PCDoc)
    (hdet : ∀ e ∈ d0 :: d1 :: rest, e.details ≠ some "") :
    mergeParsedReports ((d0 :: d1 :: rest).map mkPhotoDoc) =
      some (pcState (specImages (d0 :: d1 :: rest)) (specPerformed (d0 :: d1 :: rest))
        (specSim (d0 :: d1 :: rest)) (specDetails (d0 :: d1 :: rest))
        (specNotesFinal (d0 :: d1 :: rest))) := by
  show (((d1 :: rest).map mkPhotoDoc).foldlM mergeStep
      (dPop (mkPhotoDoc d0).2 "batch_info")).bind finalizePhotoWarning = _
  rw [stateOf_single d0]
  rw [foldlM_mergeStep_stateOf (d1 :: rest) [d0] (by simp)
    (fun e he => hdet e (by simpa using Or.inl (List.mem_singleton.mp he)))
    (fun e he => hdet e (List.mem_cons_of_mem d0 he))]
  simp only [Option.bind_eq_bind, Option.some_bind, List.singleton_append]
  exact finalize_stateOf (d0 :: d1 :: rest)

end Merge

namespace Merge

/-- Document A of the claim example: one image, no comparison. -/
def photoDocA : PyDict :=
  [("photo_comparison", .jdict
    [("images_found", .jlist [.jdict [("image_number", .jnum 1)]]),
     ("comparison_performed", .jbool false)])]

/-- Document B of the claim example: two images, no comparison. -/
def photoDocB : PyDict :=
  [("photo_comparison", .jdict
    [("images_found", .jlist [.jdict [("image_number", .jnum 1)],
       .jdict [("image_number", .jnum 2)]]),
     ("comparison_performed", .jbool false)])]

/-- C6 counterexample: the worker merge `_merge_parsed_results`, one of
the two implementations the claim ranges over, performs no
photo-comparison merging at all. On the claim example (document A with
image 1, document B with images 1 and 2, no comparison performed) it
returns document A unchanged: one image numbered 1 and no warning note,
not images 1, 2, 3 with a warning. -/
theorem C6_counterexample :
    mergeParsedResults [("a.pdf", photoDocA), ("b.pdf", photoDocB)] = photoDocA ∧
    dGet photoDocA "photo_comparison" =
      some (.jdict [("images_found", .jlist [.jdict [("image_number", .jnum 1)]]),
                    ("comparison_performed", .jbool false)]) :=
  ⟨rfl, rfl⟩

def c6DocA : PCDoc := ⟨"a.pdf", [1], false, none, none, ""⟩

def c6DocB : PCDoc := ⟨"b.pdf", [1, 2], false, none, none, ""⟩

/-- Witness for C6 (amended): the handler merge on the claim example
yields images numbered 1, 2, 3 (the appended ones tagged with their
source file) and the appended warning note. -/
theorem C6_photo_consolidation_witness :
    mergeParsedReports [mkPhotoDoc c6DocA, mkPhotoDoc c6DocB] =
      some [("photo_comparison", .jdict
        [("images_found", .jlist
           [.jdict [("image_number", .jnum 1)],
            .jdict [("image_number", .jnum 2), ("source_file", .jstr "b.pdf")],
            .jdict [("image_number", .jnum 3), ("source_file", .jstr "b.pdf")]]),
         ("comparison_performed", .jbool false),
         ("similarity_percentage", .jnull),
         ("comparison_details", .jnull),
         ("notes", .jstr "| WARNING: 3 images found but comparison not performed by AI.")])] := by
  have happ := C6_photo_consolidation c6DocA c6DocB []
    (by
      intro e he
      simp at he
      rcases he with rfl | rfl <;> simp [c6DocA, c6DocB])
  have hnotes : specNotesFinal [c6DocA, c6DocB] =
      "| WARNING: 3 images found but comparison not performed by AI." := by decide
  rw [show [mkPhotoDoc c6DocA, mkPhotoDoc c6DocB] = [c6DocA, c6DocB].map mkPhotoDoc from rfl,
    happ, hnotes]
  norm_num [pcState, pcInner, specImages, specImagesStep, specPerformed, specSim, specDetails,
    specJoinedNotes, firstSomeQ, firstSomeS, mkImage, c6DocA, c6DocB, joinNotes]

end Merge

namespace Merge

/-- The accumulator-side diagnosis normalisation of the merge: a falsy or
absent value becomes `[]`, a bare string a one-element list, a list itself,
any other truthy value `[]`. -/
def normDiagBase (v : JVal) : List JVal :=
  if truthy v then
    match v with
    | .jstr s => [.jstr s]
    | .jlist xs => xs
    | _ => []
  else []

/-- Appending one document's (string) diagnosis list, as the spec
describes it: each non-empty entry not already present is appended, in
order. -/
def specDiagStep (cur : List String) (l : List String) : List String :=
  l.foldl (fun acc s => if s ≠ "" ∧ s ∉ acc then acc ++ [s] else acc) cur

/-- The union of diagnosis lists across documents in first-seen order. -/
def specDiagUnion (base : List String) (ls : List (List String)) : List String :=
  ls.foldl specDiagStep base

@[simp] theorem pyEq_jstr (a b : String) : pyEq (.jstr a) (.jstr b) = (a == b) := rfl

@[simp] theorem truthy_jstr (s : String) : truthy (.jstr s) = (s != "") := rfl

theorem any_pyEq_jstr (s : String) (cur : List String) :
    ((cur.map .jstr).any (pyEq (.jstr s))) = decide (s ∈ cur) := by
  induction cur with
  | nil => rfl
  | cons c t ih =>
    by_cases h : s = c
    · simp [h]
    · simp [h, ih, Ne.symm h]

theorem diag_fold_strings (l : List String) (cur : List String) :
    (l.map JVal.jstr).foldl (fun acc d =>
        if truthy d && !(acc.any (pyEq d)) then acc ++ [d] else acc) (cur.map .jstr) =
      (specDiagStep cur l).map .jstr := by
  induction l generalizing cur with
  | nil => rfl
  | cons s t ih =>
    simp only [List.map_cons, List.foldl_cons, truthy_jstr, any_pyEq_jstr, specDiagStep]
    by_cases hcond : s ≠ "" ∧ s ∉ cur
    · have hb : (s != "" && !decide (s ∈ cur)) = true := by simp [hcond.1, hcond.2]
      rw [hb, if_pos hcond]
      simp only [if_true]
      rw [show List.map JVal.jstr cur ++ [JVal.jstr s] = List.map JVal.jstr (cur ++ [s]) from
        by simp]
      exact ih (cur ++ [s])
    · have hb : (s != "" && !decide (s ∈ cur)) = false := by
        rcases not_and_or.mp hcond with h | h
        · simp [not_not.mp h]
        · simp [not_not.mp h]
      rw [hb, if_neg hcond]
      simp only [Bool.false_eq_true, if_false]
      exact ih cur

theorem mergeArrayFields_diagOnly (c : PyDict) (f : String) (v : JVal) :
    mergeArrayFields c f [("diagnosis", v)] = c := by
  simp [mergeArrayFields, ARRAY_FIELDS, mergeArrayField, dGet]

theorem mergeDiagnosis_step (v : JVal) (cur : List String) (hv : normDiagBase v = cur.map .jstr)
    (l : List String) (hl : l ≠ []) :
    mergeDiagnosis [("diagnosis", v)] [("diagnosis", .jlist (l.map .jstr))] =
      [("diagnosis", .jlist ((specDiagStep cur l).map .jstr))] := by
  have htr : truthy (.jlist (l.map .jstr)) = true := by
    cases l with
    | nil => exact absurd rfl hl
    | cons a t => simp [truthy]
  unfold mergeDiagnosis
  rw [show dGet [("diagnosis", JVal.jlist (l.map .jstr))] "diagnosis" =
    some (.jlist (l.map .jstr)) from by simp [dGet]]
  simp only [htr, if_true]
  rw [show dGet [("diagnosis", v)] "diagnosis" = some v from by simp [dGet]]
  have hbase : (if truthy v = true then
      match v with
      | .jstr s => [.jstr s]
      | .jlist xs => xs
      | _ => ([] : List JVal)
      else []) = cur.map .jstr := by
    rw [← hv]
    unfold normDiagBase
    split <;> rfl
  simp only [hbase]
  rw [diag_fold_strings l cur]
  simp [dSet]

end Merge

namespace Merge

/-- A later document contributing only a diagnosis list of strings. -/
def diagDoc (p : String × List String) : String × PyDict :=
  (p.1, [("diagnosis", .jlist (p.2.map .jstr))])

theorem normDiagBase_strings (cur : List String) :
    normDiagBase (.jlist (cur.map .jstr)) = cur.map .jstr := by
  cases cur <;> simp [normDiagBase, truthy]

theorem mergePhoto_diagOnly (c : PyDict) (f : String) (v : JVal) :
    mergePhoto c f [("diagnosis", v)] = some c := by
  simp [mergePhoto, dGet]

theorem workerFoldDiag (laters : List (String × List String)) (cur : List String)
    (hl : ∀ p ∈ laters, p.2 ≠ []) :
    (laters.map diagDoc).foldl (fun c r => mergeDiagnosis (mergeArrayFields c r.1 r.2) r.2)
        [("diagnosis", .jlist (cur.map .jstr))] =
      [("diagnosis", .jlist ((specDiagUnion cur (laters.map (·.2))).map .jstr))] := by
  induction laters generalizing cur with
  | nil => rfl
  | cons p ps ih =>
    simp only [List.map_cons, List.foldl_cons, diagDoc]
    rw [mergeArrayFields_diagOnly,
      mergeDiagnosis_step _ cur (normDiagBase_strings cur) p.2
        (hl p (List.mem_cons_self p ps))]
    rw [ih (specDiagStep cur p.2) (fun q hq => hl q (List.mem_cons_of_mem p hq))]
    rfl

/-- The handler merge loop agrees with the worker merge loop on
diagnosis-only documents (its photo block is the identity there). -/
theorem handlerFoldDiag (laters : List (String × List String)) (cur : List String)
    (hl : ∀ p ∈ laters, p.2 ≠ []) :
    (laters.map diagDoc).foldlM mergeStep [("diagnosis", .jlist (cur.map .jstr))] =
      some [("diagnosis", .jlist ((specDiagUnion cur (laters.map (·.2))).map .jstr))] := by
  induction laters generalizing cur with
  | nil => rfl
  | cons p ps ih =>
    simp only [List.map_cons, List.foldlM_cons, mergeStep, diagDoc]
    rw [mergeArrayFields_diagOnly,
      mergeDiagnosis_step _ cur (normDiagBase_strings cur) p.2
        (hl p (List.mem_cons_self p ps)),
      mergePhoto_diagOnly]
    simp only [Option.bind_eq_bind, Option.some_bind]
    rw [ih (specDiagStep cur p.2) (fun q hq => hl q (List.mem_cons_of_mem p hq))]
    rfl

theorem specDiagStep_mem (l : List String) (cur : List String) (s : String) :
    s ∈ specDiagStep cur l ↔ s ∈ cur ∨ (s ≠ "" ∧ s ∈ l) := by
  induction l generalizing cur with
  | nil => simp [specDiagStep]
  | cons a t ih =>
    simp only [specDiagStep, List.foldl_cons]
    by_cases hc : a ≠ "" ∧ a ∉ cur
    · rw [if_pos hc]
      rw [show List.foldl (fun acc s => if s ≠ "" ∧ s ∉ acc then acc ++ [s] else acc)
        (cur ++ [a]) t = specDiagStep (cur ++ [a]) t from rfl, ih]
      constructor
      · rintro (hm | ⟨hs, hm⟩)
        · rcases List.mem_append.mp hm with h | h
          · exact Or.inl h
          · rcases List.mem_singleton.mp h with rfl
            exact Or.inr ⟨hc.1, List.mem_cons_self _ _⟩
        · exact Or.inr ⟨hs, List.mem_cons_of_mem a hm⟩
      · rintro (hm | ⟨hs, hm⟩)
        · exact Or.inl (List.mem_append.mpr (Or.inl hm))
        · rcases List.mem_cons.mp hm with rfl | hm
          · exact Or.inl (List.mem_append.mpr (Or.inr (List.mem_singleton.mpr rfl)))
          · exact Or.inr ⟨hs, hm⟩
    · rw [if_neg hc]
      rw [show List.foldl (fun acc s => if s ≠ "" ∧ s ∉ acc then acc ++ [s] else acc)
        cur t = specDiagStep cur t from rfl, ih]
      rcases not_and_or.mp hc with h | h
      · have ha : a = "" := not_not.mp h
        constructor
        · rintro (hm | ⟨hs, hm⟩)
          · exact Or.inl hm
          · exact Or.inr ⟨hs, List.mem_cons_of_mem a hm⟩
        · rintro (hm | ⟨hs, hm⟩)
          · exact Or.inl hm
          · rcases List.mem_cons.mp hm with rfl | hm
            · exact absurd ha hs
            · exact Or.inr ⟨hs, hm⟩
      · have ha : a ∈ cur := not_not.mp h
        constructor
        · rintro (hm | ⟨hs, hm⟩)
          · exact Or.inl hm
          · exact Or.inr ⟨hs, List.mem_cons_of_mem a hm⟩
        · rintro (hm | ⟨hs, hm⟩)
          · exact Or.inl hm
          · rcases List.mem_cons.mp hm with rfl | hm
            · exact Or.inl ha
            · exact Or.inr ⟨hs, hm⟩

theorem specDiagUnion_mem (ls : List (List String)) (base : List String) (s : String) :
    s ∈ specDiagUnion base ls ↔ s ∈ base ∨ (s ≠ "" ∧ ∃ l ∈ ls, s ∈ l) := by
  induction ls generalizing base with
  | nil => simp [specDiagUnion]
  | cons l t ih =>
    simp only [specDiagUnion, List.foldl_cons]
    rw [show List.foldl specDiagStep (specDiagStep base l) t =
      specDiagUnion (specDiagStep base l) t from rfl, ih, specDiagStep_mem]
    constructor
    · rintro ((hm | ⟨hs, hm⟩) | ⟨hs, l2, hl2, hm⟩)
      · exact Or.inl hm
      · exact Or.inr ⟨hs, l, List.mem_cons_self l t, hm⟩
      · exact Or.inr ⟨hs, l2, List.mem_cons_of_mem l hl2, hm⟩
    · rintro (hm | ⟨hs, l2, hl2, hm⟩)
      · exact Or.inl (Or.inl hm)
      · rcases List.mem_cons.mp hl2 with rfl | hl2
        · exact Or.inl (Or.inr ⟨hs, hm⟩)
        · exact Or.inr ⟨hs, l2, hl2, hm⟩

theorem specDiagStep_prefix (l : List String) (cur : List String) :
    ∃ t, specDiagStep cur l = cur ++ t := by
  induction l generalizing cur with
  | nil => exact ⟨[], by simp [specDiagStep]⟩
  | cons a t ih =>
    simp only [specDiagStep, List.foldl_cons]
    by_cases hc : a ≠ "" ∧ a ∉ cur
    · rw [if_pos hc]
      obtain ⟨u, hu⟩ := ih (cur ++ [a])
      exact ⟨[a] ++ u, by rw [show List.foldl (fun acc s => if s ≠ "" ∧ s ∉ acc then acc ++ [s]
        else acc) (cur ++ [a]) t = specDiagStep (cur ++ [a]) t from rfl, hu, List.append_assoc]⟩
    · rw [if_neg hc]
      exact ih cur

theorem specDiagUnion_prefix (ls : List (List String)) (base : List String) :
    ∃ t, specDiagUnion base ls = base ++ t := by
  induction ls generalizing base with
  | nil => exact ⟨[], by simp [specDiagUnion]⟩
  | cons l t ih =>
    obtain ⟨u, hu⟩ := specDiagStep_prefix l base
    obtain ⟨w, hw⟩ := ih (specDiagStep base l)
    exact ⟨u ++ w, by
      simp only [specDiagUnion, List.foldl_cons] at hw ⊢
      rw [hw, hu, List.append_assoc]⟩

theorem specDiagStep_nodup (l : List String) (cur : List String) (h : cur.Nodup) :
    (specDiagStep cur l).Nodup := by
  induction l generalizing cur with
  | nil => exact h
  | cons a t ih =>
    simp only [specDiagStep, List.foldl_cons]
    by_cases hc : a ≠ "" ∧ a ∉ cur
    · rw [if_pos hc]
      exact ih (cur ++ [a]) (by simp [List.nodup_append, h, hc.2])
    · rw [if_neg hc]
      exact ih cur h

theorem specDiagUnion_nodup (ls : List (List String)) (base : List String)
    (h : base.Nodup) : (specDiagUnion base ls).Nodup := by
  induction ls generalizing base with
  | nil => exact h
  | cons l t ih => exact ih (specDiagStep base l) (specDiagStep_nodup l base h)

end Merge

namespace Merge

/-- C8 (amended): when at least one later document contributes a
non-empty diagnosis list, both merge implementations produce a list:
the first document's diagnosis (a bare string becoming a one-element
list under the normalisation `normDiagBase`) followed by each later
entry that is non-empty and not already present, by exact string match,
in first-appearance order. The first document's value is a prefix of
the result, membership is the filtered union, and the result is
duplicate-free whenever the first document's own list is (duplicates
already inside the first document are not removed; with no later
diagnosis the first document's value passes through unchanged, possibly
as a bare string — see the counterexample). -/
theorem C8_diagnosis_union (f0 : String) (v0 : JVal) (base0 : List String)
    (laters : List (String × List String)) (hne : laters ≠ [])
    (hv0 : normDiagBase v0 = base0.map .jstr)
    (hl : ∀ p ∈ laters, p.2 ≠ []) :
    mergeParsedResults ((f0, [("diagnosis", v0)]) :: laters.map diagDoc) =
      [("diagnosis", .jlist ((specDiagUnion base0 (laters.map (·.2))).map .jstr))] ∧
    mergeParsedReports ((f0, [("diagnosis", v0)]) :: laters.map diagDoc) =
      some [("diagnosis", .jlist ((specDiagUnion base0 (laters.map (·.2))).map .jstr))] ∧
    (∃ t, specDiagUnion base0 (laters.map (·.2)) = base0 ++ t) ∧
    (∀ s, s ∈ specDiagUnion base0 (laters.map (·.2)) ↔
      s ∈ base0 ∨ (s ≠ "" ∧ ∃ l ∈ laters.map (·.2), s ∈ l)) ∧
    (base0.Nodup → (specDiagUnion base0 (laters.map (·.2))).Nodup) := by
  cases laters with
  | nil => exact absurd rfl hne
  | cons p ps =>
    have hstep := mergeDiagnosis_step v0 base0 hv0 p.2 (hl p (List.mem_cons_self p ps))
    have hrest : ∀ q ∈ ps, q.2 ≠ [] := fun q hq => hl q (List.mem_cons_of_mem p hq)
    refine ⟨?_, ?_, specDiagUnion_prefix _ _, specDiagUnion_mem _ _, specDiagUnion_nodup _ _⟩
    · show (((p :: ps).map diagDoc).foldl
        (fun c r => mergeDiagnosis (mergeArrayFields c r.1 r.2) r.2)
        (dPop [("diagnosis", v0)] "batch_info")) = _
      rw [show dPop [("diagnosis", v0)] "batch_info" = [("diagnosis", v0)] from rfl]
      simp only [List.map_cons, List.foldl_cons, diagDoc]
      rw [mergeArrayFields_diagOnly, hstep, workerFoldDiag ps (specDiagStep base0 p.2) hrest]
      rfl
    · show ((((p :: ps).map diagDoc).foldlM mergeStep
        (dPop [("diagnosis", v0)] "batch_info")).bind finalizePhotoWarning) = _
      rw [show dPop [("diagnosis", v0)] "batch_info" = [("diagnosis", v0)] from rfl]
      simp only [List.map_cons, List.foldlM_cons, mergeStep, diagDoc]
      rw [mergeArrayFields_diagOnly, hstep, mergePhoto_diagOnly]
      simp only [Option.bind_eq_bind, Option.some_bind]
      rw [handlerFoldDiag ps (specDiagStep base0 p.2) hrest]
      rfl

/-- C8 counterexample: when no later document carries a diagnosis, the
first document's bare-string diagnosis passes through unchanged in both
implementations — the merged diagnosis field is the string
`"Influenza"`, not a list. -/
theorem C8_counterexample :
    mergeParsedResults [("a.pdf", [("diagnosis", .jstr "Influenza")]),
        ("b.pdf", [("note", .jstr "clear")])] =
      [("diagnosis", .jstr "Influenza")] ∧
    mergeParsedReports [("a.pdf", [("diagnosis", .jstr "Influenza")]),
        ("b.pdf", [("note", .jstr "clear")])] =
      some [("diagnosis", .jstr "Influenza")] :=
  ⟨rfl, rfl⟩

/-- Witness for C8 (amended): two documents whose lists are disjoint
except that the second repeats its own entry and one already present;
the union keeps first-seen order with no duplicates. -/
theorem C8_diagnosis_union_witness :
    mergeParsedResults [("a.pdf", [("diagnosis", .jlist [.jstr "A", .jstr "B"])]),
        ("b.pdf", [("diagnosis", .jlist [.jstr "C", .jstr "D", .jstr "A", .jstr "C"])])] =
      [("diagnosis", .jlist [.jstr "A", .jstr "B", .jstr "C", .jstr "D"])] ∧
    (["A", "B", "C", "D"] : List String).Nodup := by
  obtain ⟨h1, -, -, -, -⟩ := C8_diagnosis_union "a.pdf" (.jlist [.jstr "A", .jstr "B"])
    ["A", "B"] [("b.pdf", ["C", "D", "A", "C"])] (by simp) rfl (by simp)
  refine ⟨?_, by decide⟩
  rw [show ([("a.pdf", [("diagnosis", JVal.jlist [.jstr "A", .jstr "B"])]),
      ("b.pdf", [("diagnosis", JVal.jlist [.jstr "C", .jstr "D", .jstr "A", .jstr "C"])])] :
      List (String × PyDict)) =
    ("a.pdf", [("diagnosis", JVal.jlist [.jstr "A", .jstr "B"])]) ::
      [("b.pdf", ["C", "D", "A", "C"])].map diagDoc from rfl, h1]
  rw [show specDiagUnion ["A", "B"] ([("b.pdf", ["C", "D", "A", "C"])].map (·.2)) =
    ["A", "B", "C", "D"] from by decide]
  rfl

end Merge

/-! ## Job state machine (`server/workers/parsing_worker.py`)

The MongoDB update operations of `_process_job`, `_handle_job_failure`
and `_send_webhook` are modelled as pure transformers on a `Job` record;
the per-job control flow of the worker is the step relation `WStep`
(claim a pending job, then either complete it or route any exception to
the failure handler; webhook bookkeeping touches terminal jobs only).
Wall-clock times are opaque rationals. -/

namespace Worker

inductive JobStatus where
  | pending
  | processing
  | completed
  | failed
  deriving DecidableEq

/-- `WebhookMeta` of `server/models/parsing_job.py`. -/
structure WebhookMeta where
  delivered : Bool
  status : String
  webhook_url : Option String
  last_attempt_at : Option ℚ
  attempts : Nat
  deriving DecidableEq

/-- The slice of the `ParsingJob` document the worker reads and writes. -/
structure Job where
  status : JobStatus
  message : String
  retry_count : Nat
  max_retries : Nat
  last_error : Option String
  parsed_data : Option JVal
  confidence_score : Option ℤ
  confidence_summary : Option String
  files_processed : Nat
  successful_parses : Nat
  failed_parses : Nat
  parsing_time_seconds : Option ℚ
  started_at : Option ℚ
  completed_at : Option ℚ
  webhook_meta : WebhookMeta

/-- Python string slicing `s[:n]`. -/
def pyTake (n : Nat) (s : String) : String := ⟨s.data.take n⟩

/-- The `status=processing` update at the top of `_process_job`. -/
def markProcessing (t : ℚ) (j : Job) : Job :=
  { j with
      status := .processing
      started_at := some t
      message := "Parsing in progress" }

/-- The data of the completion update of `_process_job`. -/
structure CompletionData where
  completedAt : ℚ
  filesTotal : Nat
  pdfCount : Nat
  parsingTime : ℚ
  parsedData : JVal
  confidence : ℤ
  summary : String

/-- The `status=completed` update of `_process_job`: the only write of
`parsed_data`; `failed_parses` is `len(files) - len(pdf_files)`. -/
def completeJob (c : CompletionData) (j : Job) : Job :=
  { j with
      status := .completed
      completed_at := some c.completedAt
      message := "Successfully processed " ++ toString c.pdfCount ++ " file(s)"
      files_processed := c.filesTotal
      successful_parses := c.pdfCount
      failed_parses := c.filesTotal - c.pdfCount
      parsing_time_seconds := some c.parsingTime
      parsed_data := some c.parsedData
      confidence_score := some c.confidence
      confidence_summary := some c.summary }

/-- `_handle_job_failure`: below the retry budget the job goes back to
`pending` with `retry_count` incremented; otherwise it becomes terminal
`failed`. (`job_doc.get("retry_count", 0)` and
`job_doc.get("max_retries", MAX_RETRIES=3)` are the record fields here,
defaults applied at job creation.) -/
def handleJobFailure (err : String) (t : ℚ) (j : Job) : Job :=
  if j.retry_count < j.max_retries then
    { j with
        status := .pending
        retry_count := j.retry_count + 1
        last_error := some err
        message := "Retry " ++ toString (j.retry_count + 1) ++ "/" ++ toString j.max_retries
          ++ ": " ++ pyTake 100 err }
  else
    { j with
        status := .failed
        completed_at := some t
        last_error := some err
        message := "Failed after " ++ toString j.max_retries ++ " retries: "
          ++ pyTake 200 err }

/-- What one webhook POST produced: an HTTP status code, or a transport
exception with its message. -/
inductive WebhookOutcome where
  | response (code : Nat)
  | exception (msg : String)

/-- The webhook-metadata update of `_send_webhook`: a 2xx response marks
success, anything else marks failure carrying the code or the first 100
characters of the exception text; `attempts` is incremented and
`last_attempt_at` stamped in every case; nothing else on the job is
touched. -/
def webhookUpdate (o : WebhookOutcome) (t : ℚ) (j : Job) : Job :=
  match o with
  | .response code =>
    if 200 ≤ code ∧ code < 300 then
      { j with
          webhook_meta := { j.webhook_meta with
            delivered := true
            status := "success"
            last_attempt_at := some t
            attempts := j.webhook_meta.attempts + 1 } }
    else
      { j with
          webhook_meta := { j.webhook_meta with
            delivered := false
            status := "fail (" ++ toString code ++ ")"
            last_attempt_at := some t
            attempts := j.webhook_meta.attempts + 1 } }
  | .exception msg =>
    { j with
        webhook_meta := { j.webhook_meta with
          delivered := false
          status := "fail (" ++ pyTake 100 msg ++ ")"
          last_attempt_at := some t
          attempts := j.webhook_meta.attempts + 1 } }

/-- The per-job transitions the worker performs: claim a pending job;
from processing, either write the completion update or route the caught
exception to the failure handler; attempt webhook delivery for a
terminal job with a configured URL. -/
inductive WStep : Job → Job → Prop where
  | claim (t : ℚ) (j : Job) (h : j.status = .pending) : WStep j (markProcessing t j)
  | complete (c : CompletionData) (j : Job) (h : j.status = .processing) :
      WStep j (completeJob c j)
  | fail (err : String) (t : ℚ) (j : Job) (h : j.status = .processing) :
      WStep j (handleJobFailure err t j)
  | webhook (o : WebhookOutcome) (t : ℚ) (j : Job)
      (hs : j.status = .completed ∨ j.status = .failed)
      (hu : j.webhook_meta.webhook_url.isSome = true) :
      WStep j (webhookUpdate o t j)

/-- Zero or more worker transitions. -/
def Reachable : Job → Job → Prop := Relation.ReflTransGen WStep

end Worker

namespace Worker

theorem wstep_retry_bound {j j2 : Job} (h : WStep j j2)
    (hb : j.retry_count ≤ j.max_retries) : j2.retry_count ≤ j2.max_retries := by
  cases h with
  | claim t j hp => simpa [markProcessing] using hb
  | complete c j hp => simpa [completeJob] using hb
  | fail err t j hp =>
    unfold handleJobFailure
    split
    · next hlt => simp; omega
    · simpa using hb
  | webhook o t j hs hu =>
    cases o with
    | response code =>
      by_cases hc : 200 ≤ code ∧ code < 300 <;> simpa [webhookUpdate, hc] using hb
    | exception msg => simpa [webhookUpdate] using hb

theorem wstep_failed_terminal {j j2 : Job} (h : WStep j j2)
    (hf : j.status = .failed) : j2.status = .failed := by
  cases h with
  | claim t j hp => rw [hp] at hf; exact absurd hf (by simp)
  | complete c j hp => rw [hp] at hf; exact absurd hf (by simp)
  | fail err t j hp => rw [hp] at hf; exact absurd hf (by simp)
  | webhook o t j hs hu =>
    cases o with
    | response code =>
      by_cases hc : 200 ≤ code ∧ code < 300 <;> simpa [webhookUpdate, hc] using hf
    | exception msg => simpa [webhookUpdate] using hf

/-- C1: a failure below the retry budget sends the job back to pending
with `retry_count` incremented and `last_error` set; at or above the
budget the job becomes terminal `failed` with `retry_count` unchanged;
`retry_count ≤ max_retries` is preserved by every worker transition, and
a failed job never leaves `failed` (in particular never returns to
pending). -/
theorem C1_retry_bounded :
    (∀ (j : Job) (err : String) (t : ℚ), j.retry_count < j.max_retries →
      (handleJobFailure err t j).status = .pending ∧
      (handleJobFailure err t j).retry_count = j.retry_count + 1 ∧
      (handleJobFailure err t j).last_error = some err) ∧
    (∀ (j : Job) (err : String) (t : ℚ), j.max_retries ≤ j.retry_count →
      (handleJobFailure err t j).status = .failed ∧
      (handleJobFailure err t j).retry_count = j.retry_count) ∧
    (∀ j j2 : Job, Reachable j j2 → j.retry_count ≤ j.max_retries →
      j2.retry_count ≤ j2.max_retries) ∧
    (∀ j j2 : Job, Reachable j j2 → j.status = .failed → j2.status = .failed) := by
  refine ⟨?_, ?_, ?_, ?_⟩
  · intro j err t hlt
    unfold handleJobFailure
    rw [if_pos hlt]
    exact ⟨rfl, rfl, rfl⟩
  · intro j err t hge
    unfold handleJobFailure
    rw [if_neg (by omega)]
    exact ⟨rfl, rfl⟩
  · intro j j2 h
    induction h with
    | refl => exact id
    | tail h1 h2 ih => exact fun hb => wstep_retry_bound h2 (ih hb)
  · intro j j2 h
    induction h with
    | refl => exact id
    | tail h1 h2 ih => exact fun hf => wstep_failed_terminal h2 (ih hf)

/-- The completed-iff-populated invariant of C2. -/
def DataInv (j : Job) : Prop := j.status = .completed ↔ j.parsed_data ≠ none

theorem wstep_dataInv {j j2 : Job} (h : WStep j j2) (hi : DataInv j) : DataInv j2 := by
  cases h with
  | claim t j hp =>
    unfold DataInv at hi ⊢
    rw [hp] at hi
    simp only [markProcessing]
    constructor
    · intro hc; exact absurd hc (by simp)
    · intro hd
      exact absurd (hi.mpr hd) (by simp)
  | complete c j hp =>
    unfold DataInv
    simp [completeJob]
  | fail err t j hp =>
    unfold DataInv at hi ⊢
    rw [hp] at hi
    have hpd : j.parsed_data = none := by
      by_contra hd
      exact absurd (hi.mpr hd) (by simp)
    unfold handleJobFailure
    split <;> simp [hpd]
  | webhook o t j hs hu =>
    unfold DataInv at hi ⊢
    cases o with
    | response code =>
      by_cases hc : 200 ≤ code ∧ code < 300 <;> simpa [webhookUpdate, hc] using hi
    | exception msg => simpa [webhookUpdate] using hi

/-- C2: the completion update is the only transition that writes
`parsed_data` (and it sets status to `completed` in the same update); the
retry and terminal-failure transitions, the claim transition, and webhook
bookkeeping leave `parsed_data` untouched (and webhook bookkeeping leaves
the status untouched); consequently `status = completed ↔ parsed_data
non-null` is preserved by every worker transition. -/
theorem C2_completed_iff_parsed :
    (∀ (c : CompletionData) (j : Job),
      (completeJob c j).status = .completed ∧
      (completeJob c j).parsed_data = some c.parsedData) ∧
    (∀ (err : String) (t : ℚ) (j : Job),
      (handleJobFailure err t j).parsed_data = j.parsed_data ∧
      (handleJobFailure err t j).status ≠ .completed) ∧
    (∀ (t : ℚ) (j : Job), (markProcessing t j).parsed_data = j.parsed_data) ∧
    (∀ (o : WebhookOutcome) (t : ℚ) (j : Job),
      (webhookUpdate o t j).parsed_data = j.parsed_data ∧
      (webhookUpdate o t j).status = j.status) ∧
    (∀ j j2 : Job, Reachable j j2 → DataInv j → DataInv j2) := by
  refine ⟨fun c j => ⟨rfl, rfl⟩, ?_, fun t j => rfl, ?_, ?_⟩
  · intro err t j
    unfold handleJobFailure
    split <;> simp
  · intro o t j
    cases o with
    | response code =>
      by_cases hc : 200 ≤ code ∧ code < 300 <;> simp [webhookUpdate, hc]
    | exception msg => simp [webhookUpdate]
  · intro j j2 h
    induction h with
    | refl => exact id
    | tail h1 h2 ih => exact fun hi => wstep_dataInv h2 (ih hi)

/-- C7: a non-2xx response or a transport exception records a failed
delivery attempt — `delivered = false` with the status carrying the HTTP
code or the truncated exception text — increments `attempts` by exactly
one, stamps `last_attempt_at`, and leaves the job status (and its parsed
data) untouched; `attempts` and `last_attempt_at` are updated on every
attempt regardless of outcome. -/
theorem C7_webhook_failure_bookkeeping (j : Job) (o : WebhookOutcome) (t : ℚ)
    (hfail : ∀ code, o = .response code → code < 200 ∨ 300 ≤ code) :
    (webhookUpdate o t j).webhook_meta.delivered = false ∧
    (webhookUpdate o t j).webhook_meta.attempts = j.webhook_meta.attempts + 1 ∧
    (webhookUpdate o t j).webhook_meta.last_attempt_at = some t ∧
    (webhookUpdate o t j).status = j.status ∧
    (webhookUpdate o t j).parsed_data = j.parsed_data ∧
    (webhookUpdate o t j).webhook_meta.status =
      (match o with
       | .response code => "fail (" ++ toString code ++ ")"
       | .exception msg => "fail (" ++ pyTake 100 msg ++ ")") ∧
    (∀ (o2 : WebhookOutcome) (t2 : ℚ),
      (webhookUpdate o2 t2 j).webhook_meta.attempts = j.webhook_meta.attempts + 1 ∧
      (webhookUpdate o2 t2 j).webhook_meta.last_attempt_at = some t2) := by
  have hlast : ∀ (o2 : WebhookOutcome) (t2 : ℚ),
      (webhookUpdate o2 t2 j).webhook_meta.attempts = j.webhook_meta.attempts + 1 ∧
      (webhookUpdate o2 t2 j).webhook_meta.last_attempt_at = some t2 := by
    intro o2 t2
    cases o2 with
    | response code =>
      by_cases hc : 200 ≤ code ∧ code < 300 <;> simp [webhookUpdate, hc]
    | exception msg => simp [webhookUpdate]
  cases o with
  | response code =>
    have hc : ¬(200 ≤ code ∧ code < 300) := by
      rcases hfail code rfl with h | h <;> omega
    refine ⟨?_, ?_, ?_, ?_, ?_, ?_, hlast⟩ <;> simp [webhookUpdate, hc]
  | exception msg =>
    refine ⟨?_, ?_, ?_, ?_, ?_, ?_, hlast⟩ <;> simp [webhookUpdate]

end Worker

namespace Worker

/-- A freshly retried job: one failure behind it, budget of three. -/
def sampleJob : Job :=
  { status := .pending
    message := "Parsing queued"
    retry_count := 1
    max_retries := 3
    last_error := none
    parsed_data := none
    confidence_score := none
    confidence_summary := none
    files_processed := 0
    successful_parses := 0
    failed_parses := 0
    parsing_time_seconds := none
    started_at := none
    completed_at := none
    webhook_meta := ⟨false, "pending", some "https://example.com/hook", none, 0⟩ }

/-- The same job with its retry budget exhausted. -/
def exhaustedJob : Job := { sampleJob with retry_count := 3 }

/-- The same job in the terminal failed state. -/
def doneJob : Job := { sampleJob with status := .failed }

theorem C7_webhook_failure_bookkeeping_witness :
    (webhookUpdate (.response 404) 7 doneJob).webhook_meta.delivered = false ∧
    (webhookUpdate (.response 404) 7 doneJob).webhook_meta.attempts = 1 ∧
    (webhookUpdate (.response 404) 7 doneJob).webhook_meta.last_attempt_at = some 7 ∧
    (webhookUpdate (.response 404) 7 doneJob).status = JobStatus.failed ∧
    (webhookUpdate (.response 404) 7 doneJob).webhook_meta.status = "fail (404)" := by
  obtain ⟨h1, h2, h3, h4, h5, h6, h7⟩ :=
    C7_webhook_failure_bookkeeping doneJob (.response 404) 7
      (by intro code hc; cases hc; omega)
  exact ⟨h1, h2.trans (by decide), h3, h4.trans rfl, h6.trans (by decide)⟩

end Worker

namespace Worker

/-- A job in flight, for exercising the completion transition. -/
def procJob : Job := { sampleJob with status := .processing }

/-- Concrete data for the completion update. -/
def sampleCompletion : CompletionData :=
  ⟨100, 2, 2, 5, .jdict [("patient_name", .jstr "A")], 88, "Very Good quality"⟩

theorem C1_retry_bounded_witness :
    (handleJobFailure "boom" 5 sampleJob).status = JobStatus.pending ∧
    (handleJobFailure "boom" 5 sampleJob).retry_count = 2 ∧
    (handleJobFailure "boom" 5 sampleJob).last_error = some "boom" ∧
    (handleJobFailure "boom" 5 exhaustedJob).status = JobStatus.failed ∧
    (handleJobFailure "boom" 5 exhaustedJob).retry_count = 3 ∧
    sampleJob.retry_count ≤ sampleJob.max_retries ∧
    doneJob.status = JobStatus.failed := by
  obtain ⟨h1, h2, h3, h4⟩ := C1_retry_bounded
  obtain ⟨a1, a2, a3⟩ := h1 sampleJob "boom" 5 (by decide)
  obtain ⟨b1, b2⟩ := h2 exhaustedJob "boom" 5 (by decide)
  exact ⟨a1, a2.trans (by decide), a3, b1, b2.trans (by decide),
    h3 sampleJob sampleJob Relation.ReflTransGen.refl (by decide),
    h4 doneJob doneJob Relation.ReflTransGen.refl rfl⟩

theorem C2_completed_iff_parsed_witness :
    (completeJob sampleCompletion procJob).status = JobStatus.completed ∧
    (completeJob sampleCompletion procJob).parsed_data = some sampleCompletion.parsedData ∧
    (handleJobFailure "boom" 5 procJob).parsed_data = procJob.parsed_data ∧
    (markProcessing 1 sampleJob).parsed_data = sampleJob.parsed_data ∧
    (webhookUpdate (.response 500) 7 doneJob).status = doneJob.status ∧
    DataInv sampleJob := by
  obtain ⟨h1, h2, h3, h4, h5⟩ := C2_completed_iff_parsed
  obtain ⟨a1, a2⟩ := h1 sampleCompletion procJob
  obtain ⟨b1, -⟩ := h2 "boom" 5 procJob
  obtain ⟨-, d2⟩ := h4 (.response 500) 7 doneJob
  refine ⟨a1, a2, b1, h3 1 sampleJob, d2, ?_⟩
  exact h5 sampleJob sampleJob Relation.ReflTransGen.refl
    (by constructor <;> intro h <;> simp [sampleJob, DataInv] at h)

end Worker

namespace Pipeline

/-- One entry of the `files` list of a job, together with what the
environment does with it: whether the blob download succeeds, and what
`parse_pdf` returns for it (`none` for an exception). -/
structure FileSpec where
  filename : String
  downloadOk : Bool
  parseResult : Option PyDict

/-- The download loop of `_process_job`: files whose blob download
succeeds become `pdf_files`; the rest are skipped with `continue`. -/
def pdfFilesOf (files : List FileSpec) : List FileSpec :=
  files.filter (fun x => x.downloadOk)

/-- The individual-parsing loop of `_parse_files`: a file contributes a
`{"filename", "data"}` record iff `parse_pdf` returned a truthy dict. -/
def parsedResults (pdfs : List FileSpec) : List (String × PyDict) :=
  pdfs.foldr
    (fun f acc =>
      match f.parseResult with
      | some d => if truthy (.jdict d) then (f.filename, d) :: acc else acc
      | none => acc)
    []

/-- The fallback branch of `_parse_files`: raise (`none`) when no file
parsed, return the single result's data, or merge. -/
def individualPath (pdfs : List FileSpec) : Option JVal :=
  match parsedResults pdfs with
  | [] => none
  | [r] => some (.jdict r.2)
  | rs => some (.jdict (Merge.mergeParsedResults rs))

/-- Truthiness of the consolidated-parsing result (`none` models an
exception inside `parse_multiple_pdfs`). -/
def consolidatedTruthy : Option PyDict → Bool
  | some c => truthy (.jdict c)
  | none => false

/-- `_parse_files`: with more than one file a truthy consolidated result
is returned as is; otherwise (single file, exception, or falsy result)
the individual loop runs. -/
def parseFiles (consolidated : Option PyDict) (pdfs : List FileSpec) : Option JVal :=
  if 1 < pdfs.length then
    match consolidated with
    | some c => if truthy (.jdict c) then some (.jdict c) else individualPath pdfs
    | none => individualPath pdfs
  else individualPath pdfs

/-- Outcome of `_process_job` as seen in the job document: either the
completion counters and parsed data, or the message of the raised error
that drives `_handle_job_failure`. -/
inductive JobOutcome where
  | ok (filesProcessed successfulParses failedParses : Nat) (data : JVal)
  | err (msg : String)

/-- The counter slice of `_process_job`: download, raise if nothing
downloaded, parse, and record `files_processed = len(files)`,
`successful_parses = len(pdf_files)`,
`failed_parses = len(files) - len(pdf_files)`. -/
def processJobCounters (consolidated : Option PyDict) (files : List FileSpec) : JobOutcome :=
  if (pdfFilesOf files).isEmpty then
    .err "Failed to download any PDF files from blob storage"
  else
    match parseFiles consolidated (pdfFilesOf files) with
    | none => .err "Failed to parse any files"
    | some d =>
      .ok files.length (pdfFilesOf files).length
        (files.length - (pdfFilesOf files).length) d

theorem individualPath_eq_none (pdfs : List FileSpec) :
    individualPath pdfs = none ↔ parsedResults pdfs = [] := by
  unfold individualPath
  cases parsedResults pdfs with
  | nil => simp
  | cons r rs => cases rs <;> simp

theorem parseFiles_eq_none (c : Option PyDict) (pdfs : List FileSpec)
    (h : parseFiles c pdfs = none) : parsedResults pdfs = [] := by
  unfold parseFiles at h
  by_cases h1 : 1 < pdfs.length
  · rw [if_pos h1] at h
    cases c with
    | none => exact (individualPath_eq_none pdfs).mp h
    | some c2 =>
      by_cases ht : truthy (.jdict c2) = true
      · simp [ht] at h
      · simp only [Bool.not_eq_true] at ht
        simp only [ht, Bool.false_eq_true, if_false] at h
        exact (individualPath_eq_none pdfs).mp h
  · rw [if_neg h1] at h
    exact (individualPath_eq_none pdfs).mp h

/-- A file that downloads and parses. -/
def c9File1 : FileSpec := ⟨"a.pdf", true, some [("a", JVal.jnum 1)]⟩

/-- A file that downloads but whose parse raises. -/
def c9File2 : FileSpec := ⟨"b.pdf", true, none⟩

/-- A file whose download fails. -/
def c9File3 : FileSpec := ⟨"c.pdf", false, some [("a", JVal.jnum 1)]⟩

/-- C9 counterexample: two files download, only the first parses, yet the
completion update records `successful_parses = 2` and `failed_parses = 0`
— the counters count downloads, not successful parses, so
`failed_parses = total_files - successful_parses` with `successful_parses`
read as files that actually parsed (here 1, giving 1 expected failed
parse) does not hold. -/
theorem C9_counterexample :
    processJobCounters none [c9File1, c9File2] =
      .ok 2 2 0 (.jdict [("a", JVal.jnum 1)]) ∧
    (parsedResults (pdfFilesOf [c9File1, c9File2])).length = 1 ∧
    2 - (parsedResults (pdfFilesOf [c9File1, c9File2])).length = 1 := by
  exact ⟨rfl, rfl, rfl⟩

/-- C9 amended: in every completion update the counters satisfy
`files_processed = len(files)`, `successful_parses = len(pdf_files)` (the
files that DOWNLOADED, not the files that parsed) and
`failed_parses = files_processed - successful_parses`; at least one
successful individual parse guarantees completion (partial parse success
is not a failure condition); zero successful extractions with no truthy
consolidated result raises `Failed to parse any files` into the
retry/fail path; and zero downloads raises its own error. -/
theorem C9_parse_counters :
    (∀ (consolidated : Option PyDict) (files : List FileSpec)
        (f s p : Nat) (d : JVal),
        processJobCounters consolidated files = .ok f s p d →
        f = files.length ∧ s = (pdfFilesOf files).length ∧ p = f - s) ∧
    (∀ (consolidated : Option PyDict) (files : List FileSpec),
        parsedResults (pdfFilesOf files) ≠ [] →
        ∃ d, processJobCounters consolidated files =
          .ok files.length (pdfFilesOf files).length
            (files.length - (pdfFilesOf files).length) d) ∧
    (∀ (consolidated : Option PyDict) (files : List FileSpec),
        pdfFilesOf files ≠ [] →
        parsedResults (pdfFilesOf files) = [] →
        consolidatedTruthy consolidated = false →
        processJobCounters consolidated files = .err "Failed to parse any files") ∧
    (∀ (consolidated : Option PyDict) (files : List FileSpec),
        pdfFilesOf files = [] →
        processJobCounters consolidated files =
          .err "Failed to download any PDF files from blob storage") := by
  refine ⟨?_, ?_, ?_, ?_⟩
  · intro consolidated files f s p d h
    unfold processJobCounters at h
    split at h
    · exact JobOutcome.noConfusion h
    · rcases hpf : parseFiles consolidated (pdfFilesOf files) with _ | d2 <;> rw [hpf] at h
      · exact JobOutcome.noConfusion h
      · injection h with h1 h2 h3 h4
        exact ⟨h1.symm, h2.symm, by omega⟩
  · intro consolidated files hne
    have hpdfs : ¬(pdfFilesOf files).isEmpty = true := by
      rcases hl : pdfFilesOf files with _ | ⟨a, l⟩
      · rw [hl] at hne
        exact absurd rfl hne
      · simp
    unfold processJobCounters
    rw [if_neg hpdfs]
    rcases hpf : parseFiles consolidated (pdfFilesOf files) with _ | d2
    · exact absurd (parseFiles_eq_none _ _ hpf) hne
    · exact ⟨d2, rfl⟩
  · intro consolidated files hne hempty hct
    have hpdfs : ¬(pdfFilesOf files).isEmpty = true := by
      rcases hl : pdfFilesOf files with _ | ⟨a, l⟩
      · exact absurd hl hne
      · simp
    unfold processJobCounters
    rw [if_neg hpdfs]
    have hip : individualPath (pdfFilesOf files) = none :=
      (individualPath_eq_none _).mpr hempty
    have hpf : parseFiles consolidated (pdfFilesOf files) = none := by
      unfold parseFiles
      by_cases h1 : 1 < (pdfFilesOf files).length
      · rw [if_pos h1]
        cases consolidated with
        | none => exact hip
        | some c2 =>
          have ht : truthy (.jdict c2) = false := hct
          simp only [ht, Bool.false_eq_true, if_false]
          exact hip
      · rw [if_neg h1]
        exact hip
    rw [hpf]
  · intro consolidated files h0
    unfold processJobCounters
    rw [if_pos (by rw [h0]; rfl)]

theorem C9_parse_counters_witness :
    (2 = [c9File1, c9File2].length ∧
      2 = (pdfFilesOf [c9File1, c9File2]).length ∧ 0 = 2 - 2) ∧
    (∃ d, processJobCounters none [c9File1] =
      .ok [c9File1].length (pdfFilesOf [c9File1]).length
        ([c9File1].length - (pdfFilesOf [c9File1]).length) d) ∧
    processJobCounters none [c9File2] = .err "Failed to parse any files" ∧
    processJobCounters none [c9File3] =
      .err "Failed to download any PDF files from blob storage" := by
  obtain ⟨h1, h2, h3, h4⟩ := C9_parse_counters
  refine ⟨h1 none [c9File1, c9File2] 2 2 0 (.jdict [("a", JVal.jnum 1)]) rfl, ?_, ?_, ?_⟩
  · exact h2 none [c9File1]
      (by rw [show parsedResults (pdfFilesOf [c9File1]) =
            [("a.pdf", [("a", JVal.jnum 1)])] from rfl]
          exact List.cons_ne_nil _ _)
  · exact h3 none [c9File2]
      (by rw [show pdfFilesOf [c9File2] = [c9File2] from rfl]
          exact List.cons_ne_nil _ _)
      rfl rfl
  · exact h4 none [c9File3] rfl

end Pipeline

namespace HeapModel

/-- A Python value as stored in a variable or container slot: scalars are
immediate, lists and dicts are references into the heap. This models the
aliasing semantics that the shallow `.copy()` in `_merge_parsed_reports`
and `_merge_parsed_results` relies on. -/
inductive HVal where
  | hnull
  | hbool (b : Bool)
  | hnum (n : ℤ)
  | hstr (s : String)
  | href (a : Nat)

/-- A heap object: a list or an insertion-ordered dict. -/
inductive HObj where
  | hlist (items : List HVal)
  | hdict (kvs : List (String × HVal))

/-- The heap: an association of addresses to objects plus the next fresh
address. -/
structure Heap where
  objs : List (Nat × HObj)
  next : Nat

def Heap.read (h : Heap) (a : Nat) : Option HObj :=
  (h.objs.find? (fun p => p.1 == a)).map (fun p => p.2)

def Heap.write (h : Heap) (a : Nat) (o : HObj) : Heap :=
  ⟨h.objs.map (fun p => if p.1 == a then (a, o) else p), h.next⟩

def Heap.alloc (h : Heap) (o : HObj) : Heap × Nat :=
  (⟨(h.next, o) :: h.objs, h.next + 1⟩, h.next)

/-- Assoc lookup in a dict object (`k in d` / `d[k]`). -/
def hdGet (kvs : List (String × HVal)) (k : String) : Option HVal :=
  match kvs with
  | [] => none
  | (k2, v) :: rest => if k2 == k then some v else hdGet rest k

/-- `d[k] = v` on a dict object: an existing key keeps its position, a
new key is appended (CPython insertion order). -/
def hdSet (kvs : List (String × HVal)) (k : String) (v : HVal) : List (String × HVal) :=
  match kvs with
  | [] => [(k, v)]
  | (k2, v2) :: rest => if k2 == k then (k2, v) :: rest else (k2, v2) :: hdSet rest k v

/-- Python truthiness of a value, dereferencing containers. -/
def truthyH (h : Heap) : HVal → Bool
  | .hnull => false
  | .hbool b => b
  | .hnum n => n != 0
  | .hstr s => s != ""
  | .href a =>
    match h.read a with
    | some (.hlist xs) => !xs.isEmpty
    | some (.hdict kvs) => !kvs.isEmpty
    | none => false

/-- `isinstance(v, list)` plus dereference: the address and contents when
`v` refers to a list object. -/
def asList (h : Heap) (v : HVal) : Option (Nat × List HVal) :=
  match v with
  | .href a =>
    match h.read a with
    | some (.hlist xs) => some (a, xs)
    | _ => none
  | _ => none

/-- In-place `xs.append(v)` on the list object at `a`. -/
def listAppendH (a : Nat) (v : HVal) (h : Heap) : Option Heap :=
  match h.read a with
  | some (.hlist xs) => some (h.write a (.hlist (xs ++ [v])))
  | _ => none

/-- In-place `xs.extend(vs)` on the list object at `a`. -/
def listExtendH (a : Nat) (vs : List HVal) (h : Heap) : Option Heap :=
  match h.read a with
  | some (.hlist xs) => some (h.write a (.hlist (xs ++ vs)))
  | _ => none

/-- The attribution loop of the array-field merge in both
`_merge_parsed_results` and `_merge_parsed_reports`:
`for item in source_data: if isinstance(item, dict):
item["source_file"] = filename` — a heap write into each dict item of the
LATER document's own data. -/
def tagItemsH (filename : String) (items : List HVal) (h : Heap) : Option Heap :=
  match items with
  | [] => some h
  | v :: rest =>
    match v with
    | .href a =>
      match h.read a with
      | some (.hdict kvs) =>
        tagItemsH filename rest
          (h.write a (.hdict (hdSet kvs "source_file" (.hstr filename))))
      | _ => tagItemsH filename rest h
    | _ => tagItemsH filename rest h

/-- One array field of the merge loop shared by
`ParsingWorker._merge_parsed_results` and `_merge_parsed_reports`, with
the heap explicit: guard on the source field, re-initialize an
absent/falsy/non-list accumulator slot (a REBIND of `consolidated[field]`
to a fresh list), tag the source items with `source_file` (in-place
writes into the later document), and `consolidated[field].extend(...)`
(an in-place write to the list object the slot refers to — the first
document's own list when the slot survived the shallow copy). -/
def mergeFieldH (filename field : String) (ca da : Nat) (h0 : Heap) : Option Heap :=
  match h0.read da with
  | some (.hdict dkvs) =>
    match hdGet dkvs field with
    | none => some h0
    | some dv =>
      if truthyH h0 dv then
        match h0.read ca with
        | some (.hdict ckvs) =>
          let reinit :=
            match hdGet ckvs field with
            | none => true
            | some cv => !truthyH h0 cv
          let s1 :=
            if reinit then
              let al := h0.alloc (.hlist [])
              (al.1.write ca (.hdict (hdSet ckvs field (.href al.2))),
                hdSet ckvs field (.href al.2))
            else (h0, ckvs)
          match hdGet s1.2 field with
          | none => none
          | some cv1 =>
            let s2 :=
              match asList s1.1 cv1 with
              | some al => (s1.1, some al.1)
              | none =>
                let content : List HVal := if truthyH s1.1 cv1 then [cv1] else []
                let al := s1.1.alloc (.hlist content)
                (al.1.write ca (.hdict (hdSet s1.2 field (.href al.2))), some al.2)
            match s2.2 with
            | none => none
            | some ta =>
              let srcItems : List HVal :=
                match asList s2.1 dv with
                | some al => al.2
                | none => [dv]
              match tagItemsH filename srcItems s2.1 with
              | none => none
              | some h3 => listExtendH ta srcItems h3
        | _ => none
      else some h0
  | _ => none

/-- `img.get("image_number", 0)`: the default when absent, the number
when numeric, a type trap otherwise (the `+ offset` would raise). -/
def imgNumO (kvs : List (String × HVal)) : Option ℤ :=
  match hdGet kvs "image_number" with
  | none => some 0
  | some (.hnum n) => some n
  | some _ => none

/-- The image-copy loop of the photo-comparison merge of
`_merge_parsed_reports`: each source image dict is shallow-copied
(a FRESH object), renumbered by the offset, tagged with `source_file`,
and appended IN PLACE to `existing_images` — the list object at `ea`. -/
def copyImagesH (filename : String) (offset : ℤ) (imgs : List HVal) (ea : Nat)
    (h : Heap) : Option Heap :=
  match imgs with
  | [] => some h
  | v :: rest =>
    match v with
    | .href a =>
      match h.read a with
      | some (.hdict kvs) =>
        match imgNumO kvs with
        | none => none
        | some n =>
          let newKvs :=
            hdSet (hdSet kvs "image_number" (.hnum (n + offset)))
              "source_file" (.hstr filename)
          let al := h.alloc (.hdict newKvs)
          match listAppendH ea (.href al.2) al.1 with
          | none => none
          | some h2 => copyImagesH filename offset rest ea h2
      | _ => none
    | _ => none

/-- The tail of the `images_found` merge: `offset = len(existing_images)`,
the copy loop appending in place to the `existing_images` object at `ea`,
then `consolidated["photo_comparison"]["images_found"] = existing_images`
storing the same reference back into the accumulator's photo dict. -/
def mergeImagesFin (filename : String) (iv : HVal) (pca ea : Nat) (xs : List HVal)
    (h2 : Heap) : Option Heap :=
  match asList h2 iv with
  | none => none
  | some src =>
    match copyImagesH filename (xs.length : ℤ) src.2 ea h2 with
    | none => none
    | some h3 =>
      match h3.read pca with
      | some (.hdict pckvs2) =>
        some (h3.write pca (.hdict (hdSet pckvs2 "images_found" (.href ea))))
      | _ => none

/-- The `images_found` slice of the photo-comparison merge block of
`_merge_parsed_reports`, heap-explicit: guard on the source
`photo_comparison`, initialize an absent/falsy accumulator
`photo_comparison` to a fresh dict (with a fresh empty `images_found`
list), bind `existing_images` to the accumulator's `images_found` list
OBJECT (aliasing the first document's list when it survived the shallow
copy), run the copy loop appending to that object in place, and store the
same reference back. -/
def mergeImagesH (filename : String) (ca da : Nat) (h0 : Heap) : Option Heap :=
  match h0.read da with
  | some (.hdict dkvs) =>
    match hdGet dkvs "photo_comparison" with
    | none => some h0
    | some pcv =>
      if truthyH h0 pcv then
        match h0.read ca with
        | some (.hdict ckvs) =>
          let needInit :=
            match hdGet ckvs "photo_comparison" with
            | none => true
            | some cv => !truthyH h0 cv
          let s1 :=
            if needInit then
              let al1 := h0.alloc (.hlist [])
              let al2 := al1.1.alloc (.hdict
                [("images_found", .href al1.2),
                 ("comparison_performed", .hbool false),
                 ("similarity_percentage", .hnull),
                 ("comparison_details", .hnull),
                 ("notes", .hstr "")])
              (al2.1.write ca (.hdict (hdSet ckvs "photo_comparison" (.href al2.2))),
                hdSet ckvs "photo_comparison" (.href al2.2))
            else (h0, ckvs)
          match hdGet s1.2 "photo_comparison" with
          | some (.href pca) =>
            match pcv with
            | .href pda =>
              match s1.1.read pda with
              | some (.hdict pkvs) =>
                match hdGet pkvs "images_found" with
                | none => some s1.1
                | some iv =>
                  if truthyH s1.1 iv then
                    match s1.1.read pca with
                    | some (.hdict pckvs) =>
                      match hdGet pckvs "images_found" with
                      | none =>
                        let al := s1.1.alloc (.hlist [])
                        mergeImagesFin filename iv pca al.2 [] al.1
                      | some ev =>
                        match asList s1.1 ev with
                        | some al => mergeImagesFin filename iv pca al.1 al.2 s1.1
                        | none => none
                    | _ => none
                  else some s1.1
              | _ => none
            | _ => none
          | _ => none
        | _ => none
      else some h0
  | _ => none

end HeapModel

namespace HeapModel

/-- A two-document consolidation input laid out on the heap. Addresses
0-5: the first document — its dict, its `medications` list (one item
dict, parametric contents, at 2), and its `photo_comparison` dict with
one image (at 5) and `comparison_performed = false`. Addresses 6-11: the
later document with the same shape. Address 12 is the accumulator
`consolidated = parsed_results[0]["data"].copy()`: a FRESH dict object
whose values are the SAME references as the first document's (the shallow
copy of both merge functions). -/
def c10Heap (item0 item1 : List (String × HVal)) : Heap :=
  ⟨[(0, .hdict [("medications", .href 1), ("photo_comparison", .href 3)]),
    (1, .hlist [.href 2]),
    (2, .hdict item0),
    (3, .hdict [("images_found", .href 4), ("comparison_performed", .hbool false),
                ("similarity_percentage", .hnull), ("comparison_details", .hnull),
                ("notes", .hstr "")]),
    (4, .hlist [.href 5]),
    (5, .hdict [("image_number", .hnum 1)]),
    (6, .hdict [("medications", .href 7), ("photo_comparison", .href 9)]),
    (7, .hlist [.href 8]),
    (8, .hdict item1),
    (9, .hdict [("images_found", .href 10)]),
    (10, .hlist [.href 11]),
    (11, .hdict [("image_number", .hnum 1)]),
    (12, .hdict [("medications", .href 1), ("photo_comparison", .href 3)])],
   13⟩

/-- The merge-loop body for the later document on that heap: the
`medications` array-field block followed by the `images_found` block of
the photo-comparison merge, both with `consolidated` at 12 and the later
document at 6. -/
def c10Run (fn : String) (item0 item1 : List (String × HVal)) : Option Heap :=
  (mergeFieldH fn "medications" 12 6 (c10Heap item0 item1)).bind (mergeImagesH fn 12 6)

/-- Read an address in the heap left by `c10Run`. -/
def c10Read (fn : String) (item0 item1 : List (String × HVal)) (a : Nat) : Option HObj :=
  match c10Run fn item0 item1 with
  | some h => h.read a
  | none => none

set_option maxHeartbeats 2000000 in
/-- C10: consolidation mutates its input. For every filename and item
contents, running the merge body succeeds and: the LATER document's own
medication item (address 8) has acquired `source_file = filename`; the
FIRST document's root dict (address 0) is untouched and still references
list 1 and photo dict 3, but its `medications` list object (address 1)
now also holds the later document's item, and its `images_found` list
object (address 4) now also holds the renumbered copied image (address
13, `image_number` 2 after the offset of 1) — i.e. the first document's
nested structures were extended in place through the shallow copy at 12;
the first document's own item dict (address 2) is not tagged. -/
theorem C10_merge_mutates_input (fn : String) (item0 item1 : List (String × HVal)) :
    (c10Run fn item0 item1).isSome = true ∧
    c10Read fn item0 item1 8 = some (.hdict (hdSet item1 "source_file" (.hstr fn))) ∧
    c10Read fn item0 item1 0 =
      some (.hdict [("medications", .href 1), ("photo_comparison", .href 3)]) ∧
    c10Read fn item0 item1 1 = some (.hlist [.href 2, .href 8]) ∧
    c10Read fn item0 item1 4 = some (.hlist [.href 5, .href 13]) ∧
    c10Read fn item0 item1 13 =
      some (.hdict [("image_number", .hnum 2), ("source_file", .hstr fn)]) ∧
    c10Read fn item0 item1 2 = some (.hdict item0) := by
  exact ⟨rfl, rfl, rfl, rfl, rfl, rfl, rfl⟩

theorem C10_merge_mutates_input_witness :
    (c10Run "b.pdf" [("name", HVal.hstr "aspirin")] [("name", HVal.hstr "ibuprofen")]).isSome
      = true ∧
    c10Read "b.pdf" [("name", HVal.hstr "aspirin")] [("name", HVal.hstr "ibuprofen")] 8 =
      some (.hdict [("name", .hstr "ibuprofen"), ("source_file", .hstr "b.pdf")]) ∧
    c10Read "b.pdf" [("name", HVal.hstr "aspirin")] [("name", HVal.hstr "ibuprofen")] 1 =
      some (.hlist [.href 2, .href 8]) := by
  obtain ⟨h1, h2, -, h4, -⟩ :=
    C10_merge_mutates_input "b.pdf" [("name", HVal.hstr "aspirin")]
      [("name", HVal.hstr "ibuprofen")]
  exact ⟨h1, h2.trans (by rfl), h4⟩

end HeapModel

